import Mathlib

/-!
# Verification of the AAS form-factory core

A shallow embedding, in Lean 4, of the algorithmic core of the
`aas-form-factory` repository: the array-state manager
(`src/lib/renderer/array-state.ts`), the validation engine
(`src/lib/renderer/validation.ts`), the form-state controller
(`src/lib/renderer/IDTAFormRenderer.tsx`), the template parser
(`src/lib/parser/template-parser.ts`), the cardinality helpers
(`src/types/aas.ts`), the document exporter
(`src/lib/exporters/aas-exporter.ts`, the current revision that discovers
live array indices), and the document importer
(`src/lib/importers/submodel-importer.ts`).

JavaScript records (`Record<string, T>`) are modelled as association lists
with first-match lookup and in-place overwrite, JavaScript numbers as
rationals, and host primitives (`RegExp`, `URL`, `Date.parse`) as an
explicit oracle structure.  The definitions follow the source function by
function; theorems about them settle the frozen claims.
-/

namespace AASFF

/-! ## JavaScript record model -/

/-- A JavaScript string-keyed record, as an association list.  Lookup finds
the first matching key; `set` models property assignment (overwrite in
place, or append for a fresh key). -/
abbrev StrMap (α : Type) := List (String × α)

namespace StrMap

def get {α : Type} (m : StrMap α) (k : String) : Option α :=
  (m.find? (fun p => p.1 == k)).map (·.2)

def keys {α : Type} (m : StrMap α) : List String := m.map (·.1)

def set {α : Type} (m : StrMap α) (k : String) (v : α) : StrMap α :=
  if (keys m).contains k then
    m.map (fun p => if p.1 == k then (k, v) else p)
  else
    m ++ [(k, v)]

end StrMap

/-! ## JavaScript value model

The closed universe of value shapes the form layer produces and the
conversion functions consume: strings, numbers (as rationals), booleans,
`null`/`undefined`, multi-language entry arrays, range pairs, file
descriptors and reference objects.  Host `Date` objects do not occur in
any claim and are outside the modelled universe. -/

/-- `Reference` (`src/types/aas.ts`): a typed reference with a key list;
each key is a (key-type, value) pair. -/
structure Reference where
  rtype : String
  keys : List (String × String)
  deriving DecidableEq, Repr

/-- A number-or-string field, as stored in range form values. -/
inductive NumOrStr where
  | ofNum (q : ℚ)
  | ofStr (s : String)
  deriving DecidableEq, Repr

/-- One entry of a multi-language form value: partial
`{language?, text?}` records. -/
abbrev LangEntry := Option String × Option String

inductive Value where
  | str (s : String)
  | num (q : ℚ)
  | bool (b : Bool)
  | null
  | undef
  | langs (entries : List LangEntry)
  | rangeV (rmin rmax : Option NumOrStr)
  | fileV (path contentType : Option String)
  | refV (r : Reference)
  deriving DecidableEq, Repr

/-! ## Decimal numerals

The JavaScript code interpolates array indices into path keys
(`` `${pathKey}.${index}` ``) and parses them back out with `\d+`
regular expressions.  We model decimal printing and digit parsing
explicitly so that both directions are provable. -/

/-- The most-significant-first decimal digits of a natural number,
with an explicit structural fuel (always sufficient for `fuel ≥ n`),
so that the definition reduces inside the kernel. -/
def natDigitsF : Nat → Nat → List Nat
  | 0, n => [n]
  | fuel + 1, n => if n < 10 then [n] else natDigitsF fuel (n / 10) ++ [n % 10]

/-- The most-significant-first decimal digits of a natural number. -/
def natDigits (n : Nat) : List Nat := natDigitsF n n

def digitChar : Nat → Char
  | 0 => '0' | 1 => '1' | 2 => '2' | 3 => '3' | 4 => '4'
  | 5 => '5' | 6 => '6' | 7 => '7' | 8 => '8' | _ => '9'

def digitVal? (c : Char) : Option Nat :=
  if '0' ≤ c ∧ c ≤ '9' then some (c.toNat - '0'.toNat) else none

/-- Decimal rendering of a natural number (models `String(n)` and
`` `${n}` `` for the integer indices of this code base). -/
def natToString (n : Nat) : String := String.mk ((natDigits n).map digitChar)

/-- Value of a most-significant-first digit list. -/
def digitsVal (l : List Nat) : Nat := l.foldl (fun a d => a * 10 + d) 0

/-! ## Array state (`src/lib/renderer/array-state.ts`)

Canonical array path shape: dot-index segments, e.g. `SerialNumber.0`
or `Address.1.Street`. -/

/-- `export type ArrayItemsMap = Record<string, number[]>` -/
abbrev ArrayItemsMap := StrMap (List Nat)

/-- `nextArrayIndex`: `Math.max(...indices) + 1`, or `0` when empty. -/
def nextArrayIndex (indices : List Nat) : Nat :=
  if indices = [] then 0 else indices.foldl max 0 + 1

/-- `addArrayItem`: appends `nextArrayIndex(current)` to the path's list. -/
def addArrayItem (arrayItems : ArrayItemsMap) (pathKey : String) : ArrayItemsMap :=
  let current := (StrMap.get arrayItems pathKey).getD []
  StrMap.set arrayItems pathKey (current ++ [nextArrayIndex current])

/-- `reorderArrayItems`: moves the entry at `fromPosition` to `toPosition`
(splice-remove then splice-insert); no-op when either position is out of
bounds.  Positions are JavaScript numbers, modelled as integers. -/
def reorderArrayItems (arrayItems : ArrayItemsMap) (pathKey : String)
    (fromPosition toPosition : Int) : ArrayItemsMap :=
  let current := (StrMap.get arrayItems pathKey).getD []
  if fromPosition < 0 ∨ fromPosition ≥ current.length ∨
      toPosition < 0 ∨ toPosition ≥ current.length then
    arrayItems
  else
    match current.get? fromPosition.toNat with
    | none => arrayItems
    | some moved =>
        let removed := current.eraseIdx fromPosition.toNat
        StrMap.set arrayItems pathKey (removed.insertIdx toPosition.toNat moved)

/-- `removeKeysWithPrefix`: keeps exactly the entries whose key does NOT
start with `pfx` (a plain `String.prototype.startsWith` test, with no
separator check after the prefix). -/
def removeKeysWithPrefix {α : Type} (obj : StrMap α) (pfx : String) : StrMap α :=
  obj.filter (fun p => !(pfx.data.isPrefixOf p.1.data))

/-- `removeArrayValues`: strips values/errors/touched entries for one index,
using the prefix `pathKey + "." + index`. -/
def removeArrayValues (values : StrMap Value) (errors : StrMap String)
    (touched : StrMap Bool) (pathKey : String) (index : Nat) :
    StrMap Value × StrMap String × StrMap Bool :=
  let pfx := pathKey ++ "." ++ natToString index
  (removeKeysWithPrefix values pfx,
   removeKeysWithPrefix errors pfx,
   removeKeysWithPrefix touched pfx)

/-- `removeArrayItem`: removes the item at `position` (a display position,
not an index value) and reports the removed index; returns the input map
and `null` when the position is out of bounds. -/
def removeArrayItem (arrayItems : ArrayItemsMap) (pathKey : String)
    (position : Int) : ArrayItemsMap × Option Nat :=
  let current := (StrMap.get arrayItems pathKey).getD []
  if position < 0 ∨ position ≥ current.length then
    (arrayItems, none)
  else
    match current.get? position.toNat with
    | none => (arrayItems, none)
    | some removedIndex =>
        (StrMap.set arrayItems pathKey (current.eraseIdx position.toNat),
         some removedIndex)

/-! ## Array-state invariants (claim C3) -/

/-- One user-level array operation on the index sets. -/
inductive ArrayOp where
  | add (pathKey : String)
  | remove (pathKey : String) (position : Int)
  | reorder (pathKey : String) (fromPosition toPosition : Int)
  deriving Repr

def applyArrayOp (m : ArrayItemsMap) : ArrayOp → ArrayItemsMap
  | .add p => addArrayItem m p
  | .remove p pos => (removeArrayItem m p pos).1
  | .reorder p f t => reorderArrayItems m p f t

def applyArrayOps (m : ArrayItemsMap) (ops : List ArrayOp) : ArrayItemsMap :=
  ops.foldl applyArrayOp m

/-- Every index list held in the map is duplicate-free. -/
def NodupState (m : ArrayItemsMap) : Prop :=
  ∀ k, ((StrMap.get m k).getD []).Nodup

lemma self_le_foldl_max (l : List Nat) (a : Nat) : a ≤ l.foldl max a := by
  induction l generalizing a with
  | nil => exact le_refl a
  | cons b t ih => exact le_trans (le_max_left a b) (ih (max a b))

lemma le_foldl_max (l : List Nat) (x : Nat) (hx : x ∈ l) (a : Nat) :
    x ≤ l.foldl max a := by
  induction l generalizing a with
  | nil => cases hx
  | cons b t ih =>
      rcases List.mem_cons.mp hx with rfl | hmem
      · exact le_trans (le_max_right a x) (self_le_foldl_max t (max a x))
      · exact ih hmem (max a b)

lemma lt_nextArrayIndex (l : List Nat) (x : Nat) (hx : x ∈ l) :
    x < nextArrayIndex l := by
  have hne : l ≠ [] := by rintro rfl; cases hx
  simp only [nextArrayIndex, if_neg hne]
  exact Nat.lt_succ_of_le (le_foldl_max l x hx 0)

lemma nextArrayIndex_not_mem (l : List Nat) : nextArrayIndex l ∉ l := by
  intro h
  exact absurd (lt_nextArrayIndex l _ h) (lt_irrefl _)

lemma find?_append_of_none {α : Type} (l₁ l₂ : List α) (p : α → Bool)
    (h : l₁.find? p = none) : (l₁ ++ l₂).find? p = l₂.find? p := by
  induction l₁ with
  | nil => rfl
  | cons a t ih =>
      simp only [List.find?, List.cons_append] at h ⊢
      cases hp : p a with
      | true => simp [hp] at h
      | false => simp only [hp] at h ⊢; exact ih h

lemma keys_not_contains {α : Type} (m : StrMap α) (k : String)
    (h : ¬ (StrMap.keys m).contains k = true) : ∀ p ∈ m, ¬ p.1 = k := by
  intro p hp hpk
  exact h (List.elem_iff.mpr (by exact List.mem_map.mpr ⟨p, hp, hpk⟩))

lemma find?_mapped_self {α : Type} (m : StrMap α) (k : String) (v : α)
    (hex : ∃ p ∈ m, p.1 = k) :
    List.find? (fun p => p.1 == k)
      (m.map (fun p => if p.1 == k then (k, v) else p)) = some (k, v) := by
  induction m with
  | nil => obtain ⟨p, hp, _⟩ := hex; cases hp
  | cons q t ih =>
      by_cases hq : q.1 = k
      · simp only [List.map_cons, if_pos (show (q.1 == k) = true by simpa using hq)]
        exact List.find?_cons_of_pos _ (by simp)
      · simp only [List.map_cons, if_neg (show ¬ (q.1 == k) = true by simpa using hq)]
        rw [List.find?_cons_of_neg _ (by simpa using hq)]
        refine ih ?_
        obtain ⟨p, hp, hpk⟩ := hex
        rcases List.mem_cons.mp hp with rfl | hmem
        · exact absurd hpk hq
        · exact ⟨p, hmem, hpk⟩

lemma find?_mapped_ne {α : Type} (m : StrMap α) (k k' : String) (v : α)
    (h : k' ≠ k) :
    List.find? (fun p => p.1 == k')
      (m.map (fun p => if p.1 == k then (k, v) else p)) =
    List.find? (fun p => p.1 == k') m := by
  induction m with
  | nil => rfl
  | cons q t ih =>
      by_cases hq : q.1 = k
      · simp only [List.map_cons, if_pos (show (q.1 == k) = true by simpa using hq)]
        rw [List.find?_cons_of_neg _ (by simpa using Ne.symm h),
          List.find?_cons_of_neg _ (by simp [hq]; exact Ne.symm h)]
        exact ih
      · simp only [List.map_cons, if_neg (show ¬ (q.1 == k) = true by simpa using hq)]
        by_cases hq' : q.1 = k'
        · rw [List.find?_cons_of_pos _ (by simpa using hq'),
            List.find?_cons_of_pos _ (by simpa using hq')]
        · rw [List.find?_cons_of_neg _ (by simpa using hq'),
            List.find?_cons_of_neg _ (by simpa using hq')]
          exact ih

lemma StrMap.get_set_self {α : Type} (m : StrMap α) (k : String) (v : α) :
    StrMap.get (StrMap.set m k v) k = some v := by
  unfold StrMap.set
  split
  next h =>
    unfold StrMap.get
    rw [find?_mapped_self m k v (by
      have := List.elem_iff.mp h
      simpa [StrMap.keys] using this)]
    rfl
  next h =>
    unfold StrMap.get
    rw [find?_append_of_none _ _ _
      (List.find?_eq_none.mpr (by
        intro p hp
        simpa using keys_not_contains m k h p hp))]
    rw [List.find?_cons_of_pos _ (by simp)]
    rfl

lemma StrMap.get_set_ne {α : Type} (m : StrMap α) (k k' : String) (v : α)
    (h : k' ≠ k) : StrMap.get (StrMap.set m k v) k' = StrMap.get m k' := by
  unfold StrMap.set
  split
  · unfold StrMap.get
    rw [find?_mapped_ne m k k' v h]
  · unfold StrMap.get
    cases hf : List.find? (fun p => p.1 == k') m with
    | some x => rw [List.find?_append, hf]; rfl
    | none =>
        rw [find?_append_of_none _ _ _ hf]
        rw [List.find?_cons_of_neg _ (by simpa using Ne.symm h)]
        rfl

lemma perm_cons_eraseIdx {α : Type} (a : α) (l : List α) (i : Nat)
    (h : l.get? i = some a) : List.Perm (a :: l.eraseIdx i) l := by
  induction l generalizing i with
  | nil => simp at h
  | cons b t ih =>
      cases i with
      | zero =>
          simp only [List.get?] at h
          cases h
          simp [List.eraseIdx]
      | succ j =>
          simp only [List.get?] at h
          show List.Perm (a :: b :: t.eraseIdx j) (b :: t)
          exact (List.Perm.swap b a (t.eraseIdx j)).trans
            (List.Perm.cons b (ih j h))

lemma nodupState_set (m : ArrayItemsMap) (k : String) (l : List Nat)
    (hm : NodupState m) (hl : l.Nodup) : NodupState (StrMap.set m k l) := by
  intro k'
  by_cases hk : k' = k
  · subst hk; rw [StrMap.get_set_self]; exact hl
  · rw [StrMap.get_set_ne _ _ _ _ hk]; exact hm k'

lemma addArrayItem_nodup (m : ArrayItemsMap) (k : String)
    (hm : NodupState m) : NodupState (addArrayItem m k) := by
  unfold addArrayItem
  refine nodupState_set m k _ hm ?_
  have hc : ((StrMap.get m k).getD []).Nodup := hm k
  simp [List.nodup_append, hc, nextArrayIndex_not_mem]

lemma removeArrayItem_nodup (m : ArrayItemsMap) (k : String) (pos : Int)
    (hm : NodupState m) : NodupState (removeArrayItem m k pos).1 := by
  unfold removeArrayItem
  dsimp only
  split
  · exact hm
  · split
    · exact hm
    · exact nodupState_set m k _ hm
        (List.Nodup.sublist (List.eraseIdx_sublist _ _) (hm k))

lemma reorderArrayItems_nodup (m : ArrayItemsMap) (k : String) (f t : Int)
    (hm : NodupState m) : NodupState (reorderArrayItems m k f t) := by
  unfold reorderArrayItems
  dsimp only
  split
  · exact hm
  next hb =>
    push_neg at hb
    obtain ⟨hf0, hfl, ht0, htl⟩ := hb
    split
    · exact hm
    next moved hmv =>
      refine nodupState_set m k _ hm ?_
      set cur := (StrMap.get m k).getD [] with hcur
      have hperm1 : List.Perm ((cur.eraseIdx f.toNat).insertIdx t.toNat moved)
          (moved :: cur.eraseIdx f.toNat) := by
        refine List.perm_insertIdx moved _ ?_
        have hflen : f.toNat < cur.length := by omega
        have : (cur.eraseIdx f.toNat).length = cur.length - 1 := by
          rw [List.length_eraseIdx]
          simp [hflen]
        omega
      have hperm2 : List.Perm (moved :: cur.eraseIdx f.toNat) cur :=
        perm_cons_eraseIdx moved cur f.toNat hmv
      exact ((hperm1.trans hperm2)).nodup_iff.mpr (hm k)

lemma applyArrayOp_nodup (m : ArrayItemsMap) (op : ArrayOp)
    (hm : NodupState m) : NodupState (applyArrayOp m op) := by
  cases op with
  | add p => exact addArrayItem_nodup m p hm
  | remove p pos => exact removeArrayItem_nodup m p pos hm
  | reorder p f t => exact reorderArrayItems_nodup m p f t hm

/-! ## Claim C2 -/

/-- C2 (code bug): the claim states that removing index `i` at path `p`
purges exactly the entries whose key equals `p.i` or starts with `p.i.`,
leaving entries of other indices such as `p.10` (when `i = 1`) untouched.
The code's `removeKeysWithPrefix` tests `key.startsWith(prefix)` with
`prefix = "p.1"` and no separator after it, so the evaluation below shows
that removing index `1` of `SerialNumber` also deletes the live entry
`SerialNumber.10`, contradicting the claim. -/
theorem removeArrayValues_purges_neighbor_index :
    (removeArrayValues
        [("SerialNumber.1", Value.str "A"), ("SerialNumber.10", Value.str "B")]
        [] [] "SerialNumber" 1).1 = [] ∧
    StrMap.get (removeArrayValues
        [("SerialNumber.1", Value.str "A"), ("SerialNumber.10", Value.str "B")]
        [] [] "SerialNumber" 1).1 "SerialNumber.10" = none := by
  constructor
  · rfl
  · rfl

/-! ## Claim C3 -/

/-- C3 (counterexample): the claim asserts that no `addArrayItem` call
ever returns an index that was present earlier in the path's history.
Starting from the empty state, three adds produce indices `[0, 1, 2]`;
removing position `2` (index value `2`) and adding again re-appends
`max([0,1]) + 1 = 2`, an index already present earlier in the history. -/
theorem addArrayItem_reuses_removed_index :
    StrMap.get (addArrayItem (addArrayItem (addArrayItem [] "p") "p") "p") "p"
        = some [0, 1, 2] ∧
    (removeArrayItem (addArrayItem (addArrayItem (addArrayItem [] "p") "p") "p")
        "p" 2).2 = some 2 ∧
    StrMap.get (addArrayItem
        (removeArrayItem (addArrayItem (addArrayItem (addArrayItem [] "p") "p") "p")
          "p" 2).1 "p") "p" = some [0, 1, 2] := by
  refine ⟨rfl, rfl, rfl⟩

/-- C3 (amended): starting from an index-set state whose per-path lists are
duplicate-free, every sequence of `addArrayItem` / `removeArrayItem` /
`reorderArrayItems` operations keeps all per-path index lists pairwise
distinct; moreover `addArrayItem` always appends `max(existing) + 1`
(`0` on the empty list), which is strictly greater than every live index —
so an add never collides with a live index, although (as the
counterexample shows) it can equal an index removed earlier in the
session. -/
theorem arrayOps_preserve_nodup (m : ArrayItemsMap) (ops : List ArrayOp)
    (hm : NodupState m) :
    NodupState (applyArrayOps m ops) ∧
    nextArrayIndex [] = 0 ∧
    (∀ l : List Nat, ∀ x ∈ l, x < nextArrayIndex l) := by
  refine ⟨?_, rfl, fun l x hx => lt_nextArrayIndex l x hx⟩
  induction ops generalizing m with
  | nil => exact hm
  | cons op t ih => exact ih (applyArrayOp m op) (applyArrayOp_nodup m op hm)

/-- Witness for C3: the invariant instantiated on a concrete session. -/
theorem arrayOps_preserve_nodup_witness :
    NodupState (applyArrayOps []
      [ArrayOp.add "p", ArrayOp.add "p", ArrayOp.remove "p" 0,
       ArrayOp.reorder "p" 0 0, ArrayOp.add "p"]) :=
  (arrayOps_preserve_nodup [] _ (fun _ => by
    simp [StrMap.get, List.find?])).1

/-! ## Parsed element model (`src/lib/parser/template-parser.ts`)

`ParsedElement` is the normalized element record the parser produces.  The
scalar fields are grouped in `ElementData`; the recursive `children` field
(which the source leaves `undefined` for leaf kinds and every consumer
reads through `element.children || []`) is modelled as a plain list. -/

structure ElementConstraints where
  minLength : Option ℚ
  maxLength : Option ℚ
  pattern : Option String
  min : Option ℚ
  max : Option ℚ
  allowedValues : Option (List String)
  contentType : Option String
  deriving DecidableEq, Repr

/-- The scalar fields of a `ParsedElement`. -/
structure ElementData where
  idShort : String
  path : List String
  pathString : String
  modelType : String
  listElementType : Option String
  semanticId : Option String
  cardinality : String
  isRequired : Bool
  isArray : Bool
  valueType : Option String
  inputType : String
  description : StrMap String
  displayName : StrMap String
  constraints : Option ElementConstraints
  qualifiers : StrMap String
  exampleValue : Option String
  deriving DecidableEq, Repr

inductive ParsedElement where
  | mk (data : ElementData) (children : List ParsedElement)

def ParsedElement.data : ParsedElement → ElementData
  | .mk d _ => d

def ParsedElement.children : ParsedElement → List ParsedElement
  | .mk _ c => c

/-! ## Host primitives

`new RegExp`, `new URL`, `Date.parse` and the fixed time regular
expression are host(JavaScript engine) primitives; they are modelled as an
explicit oracle so that the theorems hold for every host behaviour.
`regexCompile` returns `none` exactly when `new RegExp(pattern)` throws,
and otherwise the compiled `test` function. -/

structure JSHost where
  regexCompile : String → Option (String → Bool)
  urlOk : String → Bool
  dateParseOk : String → Bool
  timeOk : String → Bool

/-- A trivial host instance, used to instantiate witnesses. -/
def defaultHost : JSHost :=
  ⟨fun _ => none, fun _ => false, fun _ => false, fun _ => false⟩

/-! ## Number parsing and printing

`Number(string)`, `String(number)` and friends, modelled concretely on
the decimal fragment this code base produces (signed integers and finite
decimal fractions).  Exotic host forms (hex literals, exponents,
`Infinity`, shortest-round-trip float printing) are outside the modelled
fragment; every verified statement only evaluates these functions on
decimal literals, where the model is exact. -/

def strTrim (s : String) : String :=
  String.mk (((s.data.dropWhile Char.isWhitespace).reverse.dropWhile
    Char.isWhitespace).reverse)

def isDigitChar (c : Char) : Bool := (digitVal? c).isSome

/-- `Number(s)` on a trimmed, non-empty character list:
`[sign] digits [ '.' digits ]`, with at least one digit. -/
def jsNumberCore (cs : List Char) : Option ℚ :=
  let signAndRest : ℚ × List Char :=
    match cs with
    | '-' :: r => (-1, r)
    | '+' :: r => (1, r)
    | _ => (1, cs)
  let sign := signAndRest.1
  let body := signAndRest.2
  let ds := body.takeWhile isDigitChar
  let rest := body.drop ds.length
  match rest with
  | [] =>
      if ds = [] then none
      else some (sign * (digitsVal (ds.filterMap digitVal?) : ℚ))
  | '.' :: r2 =>
      let fs := r2.takeWhile isDigitChar
      let rest2 := r2.drop fs.length
      if rest2 ≠ [] then none
      else if ds = [] ∧ fs = [] then none
      else some (sign * ((digitsVal (ds.filterMap digitVal?) : ℚ) +
        (digitsVal (fs.filterMap digitVal?) : ℚ) / ((10 : ℚ) ^ fs.length)))
  | _ => none

/-- `Number(s)`: empty (after trimming) gives `0`; unparsable gives `NaN`,
modelled as `none`. -/
def jsNumber (s : String) : Option ℚ :=
  let t := strTrim s
  if t = "" then some 0 else jsNumberCore t.data

def intToString (z : Int) : String :=
  if z < 0 then "-" ++ natToString z.natAbs else natToString z.toNat

def padZeros (k : Nat) (s : String) : String :=
  String.mk (List.replicate (k - s.length) '0') ++ s

/-- `String(number)`: exact decimal rendering.  Integers print as signed
decimal numerals; rationals with a finite decimal expansion print with
the minimal number of fraction digits; other rationals (which no verified
statement evaluates) print in fraction form as a model boundary. -/
def jsNumToString (q : ℚ) : String :=
  if q.den = 1 then intToString q.num
  else
    match (List.range 40).find? (fun k => (q * (10 : ℚ) ^ k).den == 1) with
    | some k =>
        let scaled := (q * (10 : ℚ) ^ k).num.natAbs
        let whole := scaled / 10 ^ k
        let frac := scaled % 10 ^ k
        (if q < 0 then "-" else "") ++ natToString whole ++ "." ++
          padZeros k (natToString frac)
    | none => intToString q.num ++ "/" ++ natToString q.den

/-! ## Validation engine (`src/lib/renderer/validation.ts`) -/

/-- `isEmptyValue`: `undefined`, `null` or the empty string. -/
def isEmptyValue : Option Value → Bool
  | none => true
  | some .undef => true
  | some .null => true
  | some (.str s) => s = ""
  | some _ => false

/-- `parseNumber` of the validation module: numbers pass through
(`NaN` is outside the modelled value universe), non-blank strings go
through `Number(...)`, everything else is `undefined`. -/
def parseNumber : Option Value → Option ℚ
  | some (.num q) => some q
  | some (.str s) => if strTrim s = "" then none else jsNumber s
  | _ => none

def INTEGER_TYPES : List String :=
  ["xs:integer", "xs:int", "xs:long", "xs:short", "xs:byte",
   "xs:positiveInteger", "xs:nonNegativeInteger", "xs:negativeInteger",
   "xs:nonPositiveInteger", "xs:unsignedLong", "xs:unsignedInt",
   "xs:unsignedShort", "xs:unsignedByte", "xs:gYear"]

def DECIMAL_TYPES : List String := ["xs:decimal", "xs:double", "xs:float"]

/-- The multilanguage case of `validateValue`: the value must be an array
of `{language, text}` entries with both fields truthy.  (The
`typeof entry !== 'object'` guard of the source is unreachable in the
modelled value universe, where array entries are always records.) -/
def validateML : Option Value → Option String
  | some (.langs l) =>
      if l.all (fun e =>
          (match e.1 with | some lg => lg ≠ "" | none => false) &&
          (match e.2 with | some tx => tx ≠ "" | none => false)) then
        none
      else some "Translation must include language and text"
  | _ => some "Expected translations"

/-- Truthiness of a value, as tested by `if (!value ...)`. -/
def valueTruthy : Value → Bool
  | .str s => s ≠ ""
  | .num q => q ≠ 0
  | .bool b => b
  | .null => false
  | .undef => false
  | _ => true

def isObjectValue : Value → Bool
  | .langs _ => true
  | .rangeV _ _ => true
  | .fileV _ _ => true
  | .refV _ => true
  | .null => true
  | _ => false

def rangeMinField : Value → Option NumOrStr
  | .rangeV a _ => a
  | _ => none

def rangeMaxField : Value → Option NumOrStr
  | .rangeV _ b => b
  | _ => none

def parseNumberNS : Option NumOrStr → Option ℚ
  | none => none
  | some (.ofNum q) => some q
  | some (.ofStr s) => if strTrim s = "" then none else jsNumber s

/-- The range case of `validateValue`. -/
def validateRange : Option Value → Option String
  | none => some "Expected range values"
  | some v =>
      if !(valueTruthy v) ∨ !(isObjectValue v) then some "Expected range values"
      else
        let minF := rangeMinField v
        let maxF := rangeMaxField v
        let minQ := parseNumberNS minF
        let maxQ := parseNumberNS maxF
        if minF.isSome ∧ minQ = none then some "Minimum must be a number"
        else if maxF.isSome ∧ maxQ = none then some "Maximum must be a number"
        else
          match minQ, maxQ with
          | some mn, some mx =>
              if mn > mx then some "Minimum cannot exceed maximum" else none
          | _, _ => none

/-- The declared min/max bound checks shared by the integer and decimal
branches (`element.constraints?.min` / `element.constraints?.max`). -/
def checkNumBounds (c? : Option ElementConstraints) (q : ℚ) : Option String :=
  match c? with
  | none => none
  | some c =>
      match c.min, c.max with
      | some m, some M =>
          if q < m then some ("Minimum value is " ++ jsNumToString m)
          else if q > M then some ("Maximum value is " ++ jsNumToString M)
          else none
      | some m, none =>
          if q < m then some ("Minimum value is " ++ jsNumToString m) else none
      | none, some M =>
          if q > M then some ("Maximum value is " ++ jsNumToString M) else none
      | none, none => none

def checkLenMin (c : ElementConstraints) (s : String) : Option String :=
  match c.minLength with
  | some ml =>
      if (s.length : ℚ) < ml then
        some ("Minimum length is " ++ jsNumToString ml)
      else none
  | none => none

def checkLenMax (c : ElementConstraints) (s : String) : Option String :=
  match c.maxLength with
  | some ml =>
      if (s.length : ℚ) > ml then
        some ("Maximum length is " ++ jsNumToString ml)
      else none
  | none => none

/-- The pattern check: `new RegExp(pattern)` failing to compile is caught
and yields no error. -/
def checkPattern (host : JSHost) (c : ElementConstraints) (s : String) :
    Option String :=
  match c.pattern with
  | none => none
  | some p =>
      match host.regexCompile p with
      | none => none
      | some test => if test s then none else
          some "Value does not match required pattern"

/-- The plain-string tail of `validateValue`: length bounds, then regex
pattern; non-string values fall through with no error. -/
def stringBranch (host : JSHost) (c? : Option ElementConstraints)
    (value : Option Value) : Option String :=
  match value with
  | some (.str s) =>
      match c? with
      | none => none
      | some c =>
          match checkLenMin c s with
          | some e => some e
          | none =>
              match checkLenMax c s with
              | some e => some e
              | none => checkPattern host c s
  | _ => none

def boolBranch : Option Value → Option String
  | some (.bool _) => none
  | _ => some "Expected a boolean value"

/-- Concrete shape check of `isValidDate`: `^\d{4}-\d{2}-\d{2}$`. -/
def dateShapeOk (s : String) : Bool :=
  match s.data with
  | [a, b, c, d, h1, e, f, h2, g, h] =>
      isDigitChar a && isDigitChar b && isDigitChar c && isDigitChar d &&
      h1 = '-' && isDigitChar e && isDigitChar f && h2 = '-' &&
      isDigitChar g && isDigitChar h
  | _ => false

def intBranch (c? : Option ElementConstraints) (value : Option Value) :
    Option String :=
  match parseNumber value with
  | none => some "Expected an integer"
  | some q =>
      if q.den = 1 then checkNumBounds c? q else some "Expected an integer"

def decBranch (c? : Option ElementConstraints) (value : Option Value) :
    Option String :=
  match parseNumber value with
  | none => some "Expected a number"
  | some q => checkNumBounds c? q

/-- `valueType && SET.has(valueType)`. -/
def optContains (l : List String) : Option String → Bool
  | some v => l.contains v
  | none => false

/-- The value-type dispatch of `validateValue` after the input-kind
switch. -/
def validateByType (host : JSHost) (d : ElementData) (value : Option Value) :
    Option String :=
  if d.valueType = some "xs:boolean" then boolBranch value
  else if d.valueType = some "xs:anyURI" then
    (match value with
     | some (.str s) => if host.urlOk s then none else some "Expected a valid URL"
     | _ => some "Expected a valid URL")
  else if d.valueType = some "xs:date" then
    (match value with
     | some (.str s) =>
         if dateShapeOk s && host.dateParseOk s then none
         else some "Expected a valid date"
     | _ => some "Expected a valid date")
  else if d.valueType = some "xs:dateTime" then
    (match value with
     | some (.str s) =>
         if host.dateParseOk s then none else some "Expected a valid date/time"
     | _ => some "Expected a valid date/time")
  else if d.valueType = some "xs:time" then
    (match value with
     | some (.str s) =>
         if host.timeOk s then none else some "Expected a valid time"
     | _ => some "Expected a valid time")
  else if optContains INTEGER_TYPES d.valueType then intBranch d.constraints value
  else if optContains DECIMAL_TYPES d.valueType then decBranch d.constraints value
  else stringBranch host d.constraints value

/-- `validateValue` (`src/lib/renderer/validation.ts`): empty values pass;
then the input-kind switch (multilanguage, range); then the value-type
dispatch. -/
def validateValue (host : JSHost) (element : ParsedElement)
    (value : Option Value) : Option String :=
  if isEmptyValue value then none
  else if element.data.inputType = "multilanguage" then validateML value
  else if element.data.inputType = "range" then validateRange value
  else validateByType host element.data value

/-! ## Claims C7 and C10 -/

lemma checkNumBounds_within (c : ElementConstraints) (m M q : ℚ)
    (hm : c.min = some m) (hM : c.max = some M) (h1 : m ≤ q) (h2 : q ≤ M) :
    checkNumBounds (some c) q = none := by
  unfold checkNumBounds
  dsimp only
  rw [hm, hM]
  dsimp only
  rw [if_neg (not_lt.mpr h1), if_neg (not_lt.mpr h2)]

lemma checkNumBounds_outside (c : ElementConstraints) (m M q : ℚ)
    (hm : c.min = some m) (hM : c.max = some M) (h : q < m ∨ M < q) :
    (checkNumBounds (some c) q).isSome = true := by
  unfold checkNumBounds
  dsimp only
  rw [hm, hM]
  dsimp only
  by_cases h1 : q < m
  · rw [if_pos h1]; rfl
  · rw [if_neg h1]
    rcases h with h | h
    · exact absurd h h1
    · rw [if_pos h]; rfl

lemma validateValue_to_byType (host : JSHost) (e : ParsedElement) (q : ℚ)
    (hml : e.data.inputType ≠ "multilanguage")
    (hrg : e.data.inputType ≠ "range") :
    validateValue host e (some (.num q)) =
      validateByType host e.data (some (.num q)) := by
  unfold validateValue
  rw [if_neg (by simp [isEmptyValue]), if_neg hml, if_neg hrg]

lemma validateByType_integer (host : JSHost) (d : ElementData)
    (value : Option Value) (vt : String) (hvt : d.valueType = some vt)
    (hmem : vt ∈ INTEGER_TYPES) :
    validateByType host d value = intBranch d.constraints value := by
  have hne : ∀ s : String,
      s ∈ ["xs:boolean", "xs:anyURI", "xs:date", "xs:dateTime", "xs:time"] →
      vt ≠ s := by
    intro s hs hEq
    subst hEq
    fin_cases hs <;> exact absurd hmem (by decide)
  unfold validateByType
  rw [hvt]
  rw [if_neg (fun h => hne "xs:boolean" (by decide) (Option.some.inj h)),
    if_neg (fun h => hne "xs:anyURI" (by decide) (Option.some.inj h)),
    if_neg (fun h => hne "xs:date" (by decide) (Option.some.inj h)),
    if_neg (fun h => hne "xs:dateTime" (by decide) (Option.some.inj h)),
    if_neg (fun h => hne "xs:time" (by decide) (Option.some.inj h)),
    if_pos (show optContains INTEGER_TYPES (some vt) = true from
      List.elem_iff.mpr hmem)]

lemma validateByType_decimal (host : JSHost) (d : ElementData)
    (value : Option Value) (vt : String) (hvt : d.valueType = some vt)
    (hmem : vt ∈ DECIMAL_TYPES) :
    validateByType host d value = decBranch d.constraints value := by
  have hne : ∀ s : String,
      s ∈ ["xs:boolean", "xs:anyURI", "xs:date", "xs:dateTime", "xs:time"] →
      vt ≠ s := by
    intro s hs hEq
    subst hEq
    fin_cases hs <;> exact absurd hmem (by decide)
  have hint : INTEGER_TYPES.contains vt = false := by
    fin_cases hmem <;> decide
  unfold validateByType
  rw [hvt]
  rw [if_neg (fun h => hne "xs:boolean" (by decide) (Option.some.inj h)),
    if_neg (fun h => hne "xs:anyURI" (by decide) (Option.some.inj h)),
    if_neg (fun h => hne "xs:date" (by decide) (Option.some.inj h)),
    if_neg (fun h => hne "xs:dateTime" (by decide) (Option.some.inj h)),
    if_neg (fun h => hne "xs:time" (by decide) (Option.some.inj h)),
    if_neg (by simp only [optContains]; rw [hint]; simp),
    if_pos (show optContains DECIMAL_TYPES (some vt) = true from
      List.elem_iff.mpr hmem)]

/-- C7 (counterexample): the claim promises no error for ANY numeric value
within the declared inclusive bounds, for integer-family as well as
decimal-family value types.  For an `xs:integer` element with bounds
`[1, 3]`, the non-integral value `5/2` lies within the bounds but
`validateValue` rejects it with `Expected an integer`, because the
integer-family branch demands a whole number before checking bounds. -/
theorem validateValue_integer_rejects_fraction_within_bounds :
    validateValue defaultHost
      (ParsedElement.mk
        ⟨"F", ["F"], "F", "Property", none, none, "ZeroToOne", false, false,
          some "xs:integer", "integer", [], [],
          some ⟨none, none, none, some 1, some 3, none, none⟩, [], none⟩ [])
      (some (.num ⟨5, 2, by decide, by decide⟩))
      = some "Expected an integer" ∧
    (1 : ℚ) ≤ ⟨5, 2, by decide, by decide⟩ ∧
    (⟨5, 2, by decide, by decide⟩ : ℚ) ≤ 3 := by
  refine ⟨rfl, by decide, by decide⟩

/-- C7 (amended): for every element with declared numeric min/max
constraints, an integer-family value type accepts exactly the whole
numbers within `[min, max]` (inclusive) and returns an error for every
numeric value strictly below min or strictly above max; a decimal-family
value type accepts every numeric value within `[min, max]` (inclusive)
and returns an error for every numeric value strictly outside.  (The
original claim wrongly promised acceptance of non-integral values within
bounds for integer-family types.) -/
theorem validateValue_numeric_bounds (host : JSHost) (e : ParsedElement)
    (vt : String) (c : ElementConstraints) (m M : ℚ)
    (hml : e.data.inputType ≠ "multilanguage")
    (hrg : e.data.inputType ≠ "range")
    (hvt : e.data.valueType = some vt)
    (hc : e.data.constraints = some c)
    (hm : c.min = some m) (hM : c.max = some M) :
    (vt ∈ INTEGER_TYPES →
      (∀ q : ℚ, q.den = 1 → m ≤ q → q ≤ M →
        validateValue host e (some (.num q)) = none) ∧
      (∀ q : ℚ, q < m ∨ M < q →
        (validateValue host e (some (.num q))).isSome = true)) ∧
    (vt ∈ DECIMAL_TYPES →
      (∀ q : ℚ, m ≤ q → q ≤ M →
        validateValue host e (some (.num q)) = none) ∧
      (∀ q : ℚ, q < m ∨ M < q →
        (validateValue host e (some (.num q))).isSome = true)) := by
  constructor
  · intro hmem
    constructor
    · intro q hden h1 h2
      rw [validateValue_to_byType host e q hml hrg,
        validateByType_integer host e.data _ vt hvt hmem]
      unfold intBranch
      simp only [parseNumber]
      rw [if_pos hden, hc]
      exact checkNumBounds_within c m M q hm hM h1 h2
    · intro q hq
      rw [validateValue_to_byType host e q hml hrg,
        validateByType_integer host e.data _ vt hvt hmem]
      unfold intBranch
      simp only [parseNumber]
      by_cases hden : q.den = 1
      · rw [if_pos hden, hc]
        exact checkNumBounds_outside c m M q hm hM hq
      · rw [if_neg hden]; rfl
  · intro hmem
    constructor
    · intro q h1 h2
      rw [validateValue_to_byType host e q hml hrg,
        validateByType_decimal host e.data _ vt hvt hmem]
      unfold decBranch
      simp only [parseNumber]
      rw [hc]
      exact checkNumBounds_within c m M q hm hM h1 h2
    · intro q hq
      rw [validateValue_to_byType host e q hml hrg,
        validateByType_decimal host e.data _ vt hvt hmem]
      unfold decBranch
      simp only [parseNumber]
      rw [hc]
      exact checkNumBounds_outside c m M q hm hM hq

/-- Witness for C7: the amended claim instantiated on an `xs:integer`
element with bounds `[1, 3]` and on an `xs:decimal` element viewpoint. -/
theorem validateValue_numeric_bounds_witness :
    validateValue defaultHost
      (ParsedElement.mk
        ⟨"F", ["F"], "F", "Property", none, none, "ZeroToOne", false, false,
          some "xs:integer", "integer", [], [],
          some ⟨none, none, none, some 1, some 3, none, none⟩, [], none⟩ [])
      (some (.num 2)) = none ∧
    (validateValue defaultHost
      (ParsedElement.mk
        ⟨"F", ["F"], "F", "Property", none, none, "ZeroToOne", false, false,
          some "xs:integer", "integer", [], [],
          some ⟨none, none, none, some 1, some 3, none, none⟩, [], none⟩ [])
      (some (.num 7))).isSome = true :=
  ⟨((validateValue_numeric_bounds defaultHost
        (ParsedElement.mk
          ⟨"F", ["F"], "F", "Property", none, none, "ZeroToOne", false, false,
            some "xs:integer", "integer", [], [],
            some ⟨none, none, none, some 1, some 3, none, none⟩, [], none⟩ [])
        "xs:integer" ⟨none, none, none, some 1, some 3, none, none⟩ 1 3
        (by decide) (by decide) rfl rfl rfl rfl).1 (by decide)).1 2 rfl
      (by decide) (by decide),
    ((validateValue_numeric_bounds defaultHost
        (ParsedElement.mk
          ⟨"F", ["F"], "F", "Property", none, none, "ZeroToOne", false, false,
            some "xs:integer", "integer", [], [],
            some ⟨none, none, none, some 1, some 3, none, none⟩, [], none⟩ [])
        "xs:integer" ⟨none, none, none, some 1, some 3, none, none⟩ 1 3
        (by decide) (by decide) rfl rfl rfl rfl).1 (by decide)).2 7
      (Or.inr (by decide))⟩

/-- C10 (counterexample): the claim states that for an element whose
declared pattern is not a valid regular expression, validating ANY string
value returns no error.  But the length checks run before the pattern
check: an element with invalid pattern `"("` and `minLength 5` rejects
the string `"ab"` with a minimum-length error (under a host on which no
pattern compiles, so the element's pattern is indeed invalid). -/
theorem validateValue_invalid_pattern_minLength_error :
    defaultHost.regexCompile "(" = none ∧
    validateValue defaultHost
      (ParsedElement.mk
        ⟨"F", ["F"], "F", "Property", none, none, "ZeroToOne", false, false,
          some "xs:string", "text", [], [],
          some ⟨some 5, none, some "(", none, none, none, none⟩, [], none⟩ [])
      (some (.str "ab")) = some "Minimum length is 5" := by
  exact ⟨rfl, rfl⟩

lemma validateByType_string (host : JSHost) (d : ElementData)
    (value : Option Value)
    (hvt : d.valueType = none ∨ d.valueType = some "xs:string") :
    validateByType host d value = stringBranch host d.constraints value := by
  unfold validateByType
  rcases hvt with hvt | hvt <;>
    rw [hvt] <;>
    rw [if_neg (by decide), if_neg (by decide), if_neg (by decide),
      if_neg (by decide), if_neg (by decide), if_neg (by decide),
      if_neg (by decide)]

/-- C10 (amended): for every element whose declared regex pattern fails to
compile (`new RegExp` throws), the pattern check is silently skipped and
never raises: validating a string value yields no error whenever the
element's declared length constraints (if any) are satisfied — any error
that is returned comes from those other constraints, never from the
pattern. -/
theorem validateValue_invalid_pattern_skipped (host : JSHost)
    (e : ParsedElement) (c : ElementConstraints) (p : String) (s : String)
    (hml : e.data.inputType ≠ "multilanguage")
    (hrg : e.data.inputType ≠ "range")
    (hvt : e.data.valueType = none ∨ e.data.valueType = some "xs:string")
    (hc : e.data.constraints = some c)
    (hpat : c.pattern = some p)
    (hcomp : host.regexCompile p = none)
    (hminL : ∀ ml : ℚ, c.minLength = some ml → ml ≤ (s.length : ℚ))
    (hmaxL : ∀ ml : ℚ, c.maxLength = some ml → (s.length : ℚ) ≤ ml) :
    validateValue host e (some (.str s)) = none := by
  unfold validateValue
  by_cases hs : s = ""
  · rw [if_pos (by simp [isEmptyValue, hs])]
  · rw [if_neg (by simp [isEmptyValue, hs]), if_neg hml, if_neg hrg,
      validateByType_string host e.data _ hvt, hc]
    unfold stringBranch
    have h1 : checkLenMin c s = none := by
      unfold checkLenMin
      cases hml' : c.minLength with
      | none => rfl
      | some ml => dsimp only; rw [if_neg (not_lt.mpr (hminL ml hml'))]
    have h2 : checkLenMax c s = none := by
      unfold checkLenMax
      cases hml' : c.maxLength with
      | none => rfl
      | some ml => dsimp only; rw [if_neg (not_lt.mpr (hmaxL ml hml'))]
    dsimp only
    rw [h1]
    dsimp only
    rw [h2]
    dsimp only
    unfold checkPattern
    rw [hpat]
    dsimp only
    rw [hcomp]

/-- Witness for C10: a concrete element with invalid pattern `"("` and no
other constraints accepts an arbitrary string. -/
theorem validateValue_invalid_pattern_skipped_witness :
    validateValue defaultHost
      (ParsedElement.mk
        ⟨"F", ["F"], "F", "Property", none, none, "ZeroToOne", false, false,
          some "xs:string", "text", [], [],
          some ⟨none, none, some "(", none, none, none, none⟩, [], none⟩ [])
      (some (.str "hello")) = none :=
  validateValue_invalid_pattern_skipped defaultHost
    (ParsedElement.mk
      ⟨"F", ["F"], "F", "Property", none, none, "ZeroToOne", false, false,
        some "xs:string", "text", [], [],
        some ⟨none, none, some "(", none, none, none, none⟩, [], none⟩ [])
    ⟨none, none, some "(", none, none, none, none⟩ "(" "hello"
    (by decide) (by decide) (Or.inr rfl) rfl rfl rfl
    (by intro ml h; cases h) (by intro ml h; cases h)

/-! ## Qualifiers and cardinality (`src/types/aas.ts`)

`Qualifier.type` is spelled `qtype` because `type` is reserved in Lean;
the fields not read by any modelled function (`semanticId`, `kind`,
`valueType`, `valueId`) are omitted. -/

structure Qualifier where
  qtype : String
  value : Option String
  deriving DecidableEq, Repr

/-- `getQualifierValue`: `qualifiers?.find((q) => q.type === type)?.value`. -/
def getQualifierValue (qualifiers : Option (List Qualifier)) (t : String) :
    Option String :=
  match qualifiers with
  | none => none
  | some qs =>
      match qs.find? (fun q => q.qtype == t) with
      | none => none
      | some q => q.value

def CARDINALITY_VOCAB : List String :=
  ["One", "ZeroToOne", "OneToMany", "ZeroToMany"]

/-- `getCardinality`: the `SMT/Cardinality` qualifier value when truthy and
in the fixed vocabulary, else the default `ZeroToOne`. -/
def getCardinality (qualifiers : Option (List Qualifier)) : String :=
  match getQualifierValue qualifiers "SMT/Cardinality" with
  | some v => if v ≠ "" ∧ CARDINALITY_VOCAB.contains v then v else "ZeroToOne"
  | none => "ZeroToOne"

/-- `isRequired`: cardinality is `One` or `OneToMany`. -/
def isRequired (qualifiers : Option (List Qualifier)) : Bool :=
  getCardinality qualifiers == "One" || getCardinality qualifiers == "OneToMany"

/-- `isMultiple`: cardinality is `OneToMany` or `ZeroToMany`. -/
def isMultiple (qualifiers : Option (List Qualifier)) : Bool :=
  getCardinality qualifiers == "OneToMany" ||
    getCardinality qualifiers == "ZeroToMany"

/-- `getSemanticIdValue`: `ref?.keys?.[0]?.value`. -/
def getSemanticIdValue (ref : Option Reference) : Option String :=
  match ref with
  | none => none
  | some r => r.keys.head?.map (·.2)

/-! ## Raw template elements

The raw `SubmodelElement` tree of a template document, restricted to the
fields the parser reads.  The `value` child list (collections and lists)
and the `statements` child list (entities) are modelled as plain lists:
the source reads them only through `element.value ? ... : []` and
`element.statements ? ... : []`, where `undefined` and `[]` coincide. -/

structure RawData where
  modelType : String
  idShort : Option String
  valueType : Option String
  semanticId : Option Reference
  description : Option (List (String × String))
  displayName : Option (List (String × String))
  qualifiers : Option (List Qualifier)
  typeValueListElement : Option String
  valueTypeListElement : Option String
  contentType : Option String
  deriving DecidableEq, Repr

inductive RawElement where
  | mk (data : RawData) (value : List RawElement) (statements : List RawElement)

def RawElement.data : RawElement → RawData
  | .mk d _ _ => d

def RawElement.value : RawElement → List RawElement
  | .mk _ v _ => v

def RawElement.statements : RawElement → List RawElement
  | .mk _ _ s => s

/-- Replace the raw element's short name. -/
def RawElement.withIdShort (el : RawElement) (s : String) : RawElement :=
  match el with
  | .mk d v st => .mk { d with idShort := some s } v st

/-! ## Template parser (`src/lib/parser/template-parser.ts`) -/

/-- `langStringsToRecord`: fold the language/text pairs into a record
(later entries for the same language overwrite). -/
def langStringsToRecord (strings : Option (List (String × String))) :
    StrMap String :=
  match strings with
  | none => []
  | some l => l.foldl (fun r p => StrMap.set r p.1 p.2) []

/-- `extractQualifiers`: `if (q.type && q.value) result[q.type] = q.value`. -/
def extractQualifiers (qualifiers : Option (List Qualifier)) : StrMap String :=
  match qualifiers with
  | none => []
  | some qs =>
      qs.foldl (fun r q =>
        match q.value with
        | some v => if q.qtype ≠ "" ∧ v ≠ "" then StrMap.set r q.qtype v else r
        | none => r) []

/-- `parseInt(s, 10)`: leading whitespace and sign, then at least one
digit; trailing junk is ignored; `NaN` is `none`.  (Exact on the decimal
fragment; exotic host forms are outside the model.) -/
def jsParseInt (s : String) : Option ℚ :=
  let cs := (strTrim s).data
  let signAndRest : ℚ × List Char :=
    match cs with
    | '-' :: r => (-1, r)
    | '+' :: r => (1, r)
    | _ => (1, cs)
  let ds := signAndRest.2.takeWhile isDigitChar
  if ds = [] then none
  else some (signAndRest.1 * (digitsVal (ds.filterMap digitVal?) : ℚ))

/-- `parseFloat(s)`: like `parseInt` but with an optional fraction part. -/
def jsParseFloat (s : String) : Option ℚ :=
  let cs := (strTrim s).data
  let signAndRest : ℚ × List Char :=
    match cs with
    | '-' :: r => (-1, r)
    | '+' :: r => (1, r)
    | _ => (1, cs)
  let body := signAndRest.2
  let ds := body.takeWhile isDigitChar
  let rest := body.drop ds.length
  let fs := match rest with
    | '.' :: r2 => r2.takeWhile isDigitChar
    | _ => []
  if ds = [] ∧ fs = [] then none
  else some (signAndRest.1 * ((digitsVal (ds.filterMap digitVal?) : ℚ) +
    (digitsVal (fs.filterMap digitVal?) : ℚ) / ((10 : ℚ) ^ fs.length)))

/-- Truthy lookup of a qualifier entry: present and non-empty. -/
def truthyGet (m : StrMap String) (k : String) : Option String :=
  match StrMap.get m k with
  | some v => if v = "" then none else some v
  | none => none

/-- `extractConstraints`: read the SMT constraint qualifiers; the result
is `undefined` when no constraint qualifier is present.  (A present but
unparsable numeric qualifier yields a `NaN` field in the source, which
every later comparison treats exactly like an absent field; the model
collapses it to `none`.) -/
def extractConstraints (qualifiers : StrMap String) (_valueType : Option String) :
    Option ElementConstraints :=
  let ml := truthyGet qualifiers "SMT/MinLength"
  let mxl := truthyGet qualifiers "SMT/MaxLength"
  let pat := truthyGet qualifiers "SMT/Pattern"
  let mn := truthyGet qualifiers "SMT/Min"
  let mx := truthyGet qualifiers "SMT/Max"
  let av := truthyGet qualifiers "SMT/AllowedValue"
  if ml = none ∧ mxl = none ∧ pat = none ∧ mn = none ∧ mx = none ∧ av = none
  then none
  else some
    ⟨(ml.bind jsParseInt), (mxl.bind jsParseInt), pat,
     (mn.bind jsParseFloat), (mx.bind jsParseFloat),
     av.map (fun s => (s.splitOn ",").map strTrim), none⟩

/-- `valueTypeToInputType`'s fixed mapping table. -/
def vtInputMap : List (String × String) :=
  [("xs:string", "text"), ("xs:boolean", "boolean"), ("xs:decimal", "decimal"),
   ("xs:double", "decimal"), ("xs:float", "decimal"), ("xs:integer", "integer"),
   ("xs:int", "integer"), ("xs:long", "integer"), ("xs:short", "integer"),
   ("xs:byte", "integer"), ("xs:positiveInteger", "integer"),
   ("xs:nonNegativeInteger", "integer"), ("xs:negativeInteger", "integer"),
   ("xs:nonPositiveInteger", "integer"), ("xs:unsignedLong", "integer"),
   ("xs:unsignedInt", "integer"), ("xs:unsignedShort", "integer"),
   ("xs:unsignedByte", "integer"), ("xs:date", "date"),
   ("xs:dateTime", "datetime"), ("xs:time", "time"), ("xs:gYear", "integer"),
   ("xs:anyURI", "url"), ("xs:base64Binary", "blob"), ("xs:hexBinary", "blob")]

def valueTypeToInputType (valueType : Option String) : String :=
  match valueType with
  | none => "text"
  | some v => (((vtInputMap.find? (fun p => p.1 == v)).map (·.2))).getD "text"

/-- `determineInputType`. -/
def determineInputType (el : RawElement) : String :=
  match el.data.modelType with
  | "Property" => valueTypeToInputType el.data.valueType
  | "MultiLanguageProperty" => "multilanguage"
  | "SubmodelElementCollection" => "collection"
  | "SubmodelElementList" => "list"
  | "Range" => "range"
  | "File" => "file"
  | "Blob" => "blob"
  | "ReferenceElement" => "reference"
  | "Entity" => "entity"
  | "Operation" => "operation"
  | "Capability" => "capability"
  | "BasicEventElement" => "event"
  | "RelationshipElement" => "relationship"
  | "AnnotatedRelationshipElement" => "relationship"
  | _ => "text"

/-- `x || y` on optional strings (JavaScript truthiness). -/
def jsOrOpt (a b : Option String) : Option String :=
  match a with
  | some s => if s = "" then b else some s
  | none => b

/-!
`parseElement` and `parseElements`, by mutual structural recursion over
the raw tree.  Mirrors the source: compute the base record — substituting
the placeholder name `unnamed` for a missing/empty short name — then
specialise per model type, recursing into `value`/`statements` children
for the grouping kinds. -/
mutual

def parseElement : RawElement → List String → ParsedElement
  | el@(.mk _ v st), parentPath =>
    let idShort : String :=
      match el.data.idShort with
      | some s => if s = "" then "unnamed" else s
      | none => "unnamed"
    let path := parentPath ++ [idShort]
    let pathString := String.intercalate "." path
    let qualifiers := extractQualifiers el.data.qualifiers
    let exampleValue :=
      jsOrOpt (StrMap.get qualifiers "SMT/ExampleValue")
        (StrMap.get qualifiers "ExampleValue")
    let base : ElementData :=
      ⟨idShort, path, pathString, el.data.modelType, none,
       getSemanticIdValue el.data.semanticId,
       getCardinality el.data.qualifiers,
       isRequired el.data.qualifiers,
       isMultiple el.data.qualifiers,
       none, determineInputType el,
       langStringsToRecord el.data.description,
       langStringsToRecord el.data.displayName,
       none, qualifiers, exampleValue⟩
    match el.data.modelType with
    | "Property" =>
        .mk { base with
              valueType := el.data.valueType,
              inputType := valueTypeToInputType el.data.valueType,
              constraints := extractConstraints qualifiers el.data.valueType } []
    | "MultiLanguageProperty" => .mk { base with inputType := "multilanguage" } []
    | "SubmodelElementCollection" =>
        .mk { base with inputType := "collection" } (parseElements v path)
    | "SubmodelElementList" =>
        .mk { base with
              inputType := "list",
              valueType := el.data.valueTypeListElement,
              listElementType := el.data.typeValueListElement }
          (parseElements v path)
    | "Range" =>
        .mk { base with valueType := el.data.valueType, inputType := "range" } []
    | "File" =>
        .mk { base with
              inputType := "file",
              constraints := some
                ⟨none, none, none, none, none, none, el.data.contentType⟩ } []
    | "Blob" =>
        .mk { base with
              inputType := "blob",
              constraints := some
                ⟨none, none, none, none, none, none, el.data.contentType⟩ } []
    | "ReferenceElement" => .mk { base with inputType := "reference" } []
    | "Entity" =>
        .mk { base with inputType := "entity" } (parseElements st path)
    | "Operation" => .mk { base with inputType := "operation" } []
    | "Capability" => .mk { base with inputType := "capability" } []
    | "BasicEventElement" => .mk { base with inputType := "event" } []
    | "RelationshipElement" => .mk { base with inputType := "relationship" } []
    | "AnnotatedRelationshipElement" =>
        .mk { base with inputType := "relationship" } []
    | _ => .mk base []

def parseElements : List RawElement → List String → List ParsedElement
  | [], _ => []
  | e :: rest, parentPath =>
      parseElement e parentPath :: parseElements rest parentPath

end

/-- The raw `Submodel` fields the parser reads. -/
structure RawSubmodel where
  id : String
  idShort : Option String
  semanticId : Option Reference
  submodelElements : List RawElement

/-- The parsed template, restricted to the fields any modelled consumer
reads: the exporter uses the metadata id/idShort and the submodel's
semantic id, and walks `elements`.  (The `flatElements` lookup map and the
administration/description passthrough are not read by any claim.) -/
structure ParsedTemplate where
  metadata_id : String
  metadata_idShort : String
  submodel_semanticId : Option Reference
  elements : List ParsedElement

/-- `parseSubmodelTemplate`. -/
def parseSubmodelTemplate (sub : RawSubmodel) : ParsedTemplate :=
  ⟨sub.id,
   (match sub.idShort with
    | some s => if s = "" then "Unnamed" else s
    | none => "Unnamed"),
   sub.semanticId,
   parseElements sub.submodelElements []⟩

/-! ## Claim C8 -/

/-- C8: cardinality is read from the `SMT/Cardinality` qualifier,
defaulting to `ZeroToOne` when the qualifier is missing or its value is
outside the four-value vocabulary; `required` holds exactly for `One` and
`OneToMany`; `repeatable` (`isMultiple`, the parser's `isArray`) exactly
for `OneToMany` and `ZeroToMany`; and every parsed element carries
exactly these derived fields. -/
theorem cardinality_derivation :
    (∀ qs, getQualifierValue qs "SMT/Cardinality" = none →
      getCardinality qs = "ZeroToOne") ∧
    (∀ qs v, getQualifierValue qs "SMT/Cardinality" = some v →
      v ∉ CARDINALITY_VOCAB → getCardinality qs = "ZeroToOne") ∧
    (∀ qs v, getQualifierValue qs "SMT/Cardinality" = some v →
      v ∈ CARDINALITY_VOCAB → getCardinality qs = v) ∧
    (∀ qs, isRequired qs = true ↔
      (getCardinality qs = "One" ∨ getCardinality qs = "OneToMany")) ∧
    (∀ qs, isMultiple qs = true ↔
      (getCardinality qs = "OneToMany" ∨ getCardinality qs = "ZeroToMany")) ∧
    (∀ el pp,
      (parseElement el pp).data.cardinality
          = getCardinality el.data.qualifiers ∧
      (parseElement el pp).data.isRequired
          = isRequired el.data.qualifiers ∧
      (parseElement el pp).data.isArray
          = isMultiple el.data.qualifiers) := by
  refine ⟨?_, ?_, ?_, ?_, ?_, ?_⟩
  · intro qs h
    unfold getCardinality
    rw [h]
  · intro qs v h hv
    unfold getCardinality
    rw [h]
    dsimp only
    rw [if_neg]
    rintro ⟨-, hc⟩
    exact hv (List.elem_iff.mp hc)
  · intro qs v h hv
    unfold getCardinality
    rw [h]
    dsimp only
    rw [if_pos (⟨by fin_cases hv <;> decide, List.elem_iff.mpr hv⟩ :
      v ≠ "" ∧ CARDINALITY_VOCAB.contains v = true)]
  · intro qs
    unfold isRequired
    constructor
    · intro h
      rcases Bool.or_eq_true_iff.mp h with h | h
      · exact Or.inl (by simpa using h)
      · exact Or.inr (by simpa using h)
    · intro h
      rcases h with h | h <;> simp [h]
  · intro qs
    unfold isMultiple
    constructor
    · intro h
      rcases Bool.or_eq_true_iff.mp h with h | h
      · exact Or.inl (by simpa using h)
      · exact Or.inr (by simpa using h)
    · intro h
      rcases h with h | h <;> simp [h]
  · intro el pp
    obtain ⟨d, v, st⟩ := el
    unfold parseElement
    dsimp only
    split <;> exact ⟨rfl, rfl, rfl⟩

/-- Witness for C8 on concrete qualifier lists. -/
theorem cardinality_derivation_witness :
    getCardinality (some [⟨"SMT/Cardinality", some "OneToMany"⟩]) = "OneToMany" ∧
    getCardinality (some [⟨"SMT/Cardinality", some "Banana"⟩]) = "ZeroToOne" ∧
    getCardinality none = "ZeroToOne" ∧
    (isRequired (some [⟨"SMT/Cardinality", some "OneToMany"⟩]) = true ↔
      (getCardinality (some [⟨"SMT/Cardinality", some "OneToMany"⟩]) = "One" ∨
       getCardinality (some [⟨"SMT/Cardinality", some "OneToMany"⟩])
         = "OneToMany")) :=
  ⟨cardinality_derivation.2.2.1 (some [⟨"SMT/Cardinality", some "OneToMany"⟩])
      "OneToMany" rfl (by decide),
   cardinality_derivation.2.1 (some [⟨"SMT/Cardinality", some "Banana"⟩])
      "Banana" rfl (by decide),
   cardinality_derivation.1 none rfl,
   cardinality_derivation.2.2.2.1
     (some [⟨"SMT/Cardinality", some "OneToMany"⟩])⟩

/-! ## Claim C6 -/

/-- C6 (counterexample): the claim states that a node missing its short
name gets a placeholder name AND a warning-class issue is recorded.  The
parser's output type carries no issue channel at all: parsing a template
whose first element lacks a short name produces an output IDENTICAL to
parsing the patched template in which the name `"unnamed"` was supplied by
hand — so nothing in the result records any issue — while the placeholder
is assigned and the sibling is still parsed. -/
theorem parse_missing_idShort_no_issue_recorded :
    parseSubmodelTemplate
        ⟨"urn:t", some "T", none,
         [.mk ⟨"Property", none, some "xs:string", none, none, none, none,
              none, none, none⟩ [] [],
          .mk ⟨"Property", some "Sibling", some "xs:string", none, none, none,
              none, none, none, none⟩ [] []]⟩
      = parseSubmodelTemplate
        ⟨"urn:t", some "T", none,
         [.mk ⟨"Property", some "unnamed", some "xs:string", none, none, none,
              none, none, none, none⟩ [] [],
          .mk ⟨"Property", some "Sibling", some "xs:string", none, none, none,
              none, none, none, none⟩ [] []]⟩ ∧
    (parseSubmodelTemplate
        ⟨"urn:t", some "T", none,
         [.mk ⟨"Property", none, some "xs:string", none, none, none, none,
              none, none, none⟩ [] [],
          .mk ⟨"Property", some "Sibling", some "xs:string", none, none, none,
              none, none, none, none⟩ [] []]⟩).elements.map
      (fun e => e.data.idShort) = ["unnamed", "Sibling"] :=
  ⟨rfl, rfl⟩

/-- C6 (amended): a raw node with no short name is assigned the
placeholder name `unnamed` and parsing continues over the rest of the
tree without aborting — the parse result is exactly the parse of the same
tree with the placeholder name filled in — but no warning-class issue is
recorded (the parser has no issue output at all). -/
theorem parseElement_missing_idShort_placeholder
    (el : RawElement) (pp : List String) (h : el.data.idShort = none) :
    parseElement el pp = parseElement (el.withIdShort "unnamed") pp ∧
    (parseElement el pp).data.idShort = "unnamed" := by
  obtain ⟨⟨mt, ids, vt, sid, desc, disp, quals, tvle, vtle, ct⟩, v, st⟩ := el
  simp only [RawElement.data] at h
  subst h
  constructor
  · rfl
  · unfold parseElement
    dsimp only
    split <;> rfl

/-- Witness for C6 at a concrete nameless property node. -/
theorem parseElement_missing_idShort_placeholder_witness :
    parseElement
        (.mk ⟨"Property", none, some "xs:string", none, none, none, none,
          none, none, none⟩ [] []) []
      = parseElement
        ((RawElement.mk ⟨"Property", none, some "xs:string", none, none, none,
          none, none, none, none⟩ [] []).withIdShort "unnamed") [] ∧
    (parseElement
        (.mk ⟨"Property", none, some "xs:string", none, none, none, none,
          none, none, none⟩ [] []) []).data.idShort = "unnamed" :=
  parseElement_missing_idShort_placeholder
    (.mk ⟨"Property", none, some "xs:string", none, none, none, none,
      none, none, none⟩ [] []) [] rfl

/-! ## Form state controller (`src/lib/renderer/IDTAFormRenderer.tsx`) -/

/-- The renderer's aggregate form state. -/
structure FormState where
  values : StrMap Value
  errors : StrMap String
  touched : StrMap Bool
  arrayItems : ArrayItemsMap
  isDirty : Bool
  isValid : Bool
  isSubmitting : Bool
  deriving DecidableEq, Repr

/-- `pathToKey`: `path.join('.')`. -/
def pathToKey (path : List String) : String := String.intercalate "." path

/-- The `removeArrayItem` action of the form controller: delegates to the
array-state helper; when the helper reports no removed index the previous
state is returned unchanged, otherwise values/errors/touched are purged
for the removed index and the state is marked dirty. -/
def rendererRemoveArrayItem (prev : FormState) (path : List String)
    (position : Int) : FormState :=
  let pathKey := pathToKey path
  let result := removeArrayItem prev.arrayItems pathKey position
  match result.2 with
  | none => prev
  | some idx =>
      let cleaned := removeArrayValues prev.values prev.errors prev.touched
        pathKey idx
      { prev with
          values := cleaned.1
          errors := cleaned.2.1
          touched := cleaned.2.2
          arrayItems := result.1
          isDirty := true }

/-! ## Claim C9 -/

/-- C9: calling the controller's `removeArrayItem` with an out-of-bounds
position (negative, or at least the length of the path's index list)
leaves the whole form state unchanged — values, errors, touched, array
index sets and the dirty flag — and the underlying `removeArrayItem`
helper returns the input index sets together with a null removed index. -/
theorem removeArrayItem_out_of_bounds_noop (st : FormState)
    (path : List String) (position : Int)
    (h : position < 0 ∨
      (((StrMap.get st.arrayItems (pathToKey path)).getD []).length : Int)
        ≤ position) :
    rendererRemoveArrayItem st path position = st ∧
    removeArrayItem st.arrayItems (pathToKey path) position
      = (st.arrayItems, none) := by
  have hh : removeArrayItem st.arrayItems (pathToKey path) position
      = (st.arrayItems, none) := by
    unfold removeArrayItem
    dsimp only
    rw [if_pos]
    rcases h with h | h
    · exact Or.inl h
    · exact Or.inr (le_of_le_of_eq h rfl)
  refine ⟨?_, hh⟩
  unfold rendererRemoveArrayItem
  dsimp only
  rw [hh]

/-- Witness for C9 at a concrete state and an out-of-bounds position. -/
theorem removeArrayItem_out_of_bounds_noop_witness :
    rendererRemoveArrayItem
        ⟨[("p.0", Value.str "A")], [], [], [("p", [0])], false, true, false⟩
        ["p"] 5
      = ⟨[("p.0", Value.str "A")], [], [], [("p", [0])], false, true, false⟩ ∧
    removeArrayItem
        (⟨[("p.0", Value.str "A")], [], [], [("p", [0])], false, true,
          false⟩ : FormState).arrayItems (pathToKey ["p"]) 5
      = ([("p", [0])], none) :=
  removeArrayItem_out_of_bounds_noop
    ⟨[("p.0", Value.str "A")], [], [], [("p", [0])], false, true, false⟩
    ["p"] 5 (by right; decide)

/-! ## Exported document model

The output `Submodel`/`SubmodelElement` tree of the exporter
(`src/lib/exporters/aas-exporter.ts`), which is also the input of the
importer.  The metadata fields shared by every element kind are grouped
in `ElMeta`. -/

structure ElMeta where
  idShort : String
  semanticId : Option Reference
  description : Option (List (String × String))
  displayName : Option (List (String × String))
  deriving DecidableEq, Repr

inductive SubmodelElement where
  | property (meta : ElMeta) (valueType : String) (value : Option String)
  | mlp (meta : ElMeta) (value : List (String × String))
  | smc (meta : ElMeta) (value : List SubmodelElement)
  | sml (meta : ElMeta) (typeValueListElement : String)
      (valueTypeListElement : Option String) (value : List SubmodelElement)
  | rangeEl (meta : ElMeta) (valueType : String) (rmin rmax : Option String)
  | fileEl (meta : ElMeta) (contentType : String) (value : String)
  | blobEl (meta : ElMeta) (contentType : String) (value : Option String)
  | refEl (meta : ElMeta) (value : Option Reference)
  | entity (meta : ElMeta) (entityType : String)
      (statements : List SubmodelElement)

structure Submodel where
  id : String
  idShort : String
  semanticId : Option Reference
  kind : String
  submodelElements : List SubmodelElement

/-! ## Exporter helpers (`src/lib/exporters/aas-exporter.ts`) -/

/-- Export options.  `prettyPrint` (JSON text layout) and `generateIds`
(a host-randomness id generator) affect only the unmodelled JSON string
and the generated id; the modelled exporter always uses the template's
own id. -/
structure ExportOptions where
  includeEmpty : Bool
  deriving DecidableEq, Repr

/-- `value.includes(sub)`. -/
def strIncludes (s sub : String) : Bool := (s.splitOn sub).length ≠ 1

/-- `s.startsWith(pfx)`. -/
def jsStartsWith (s pfx : String) : Bool := pfx.data.isPrefixOf s.data

/-- `s.slice(n)`. -/
def strDropChars (s : String) (n : Nat) : String := String.mk (s.data.drop n)

/-- `a || dflt` for a required string result. -/
def jsOrStr (a : Option String) (dflt : String) : String :=
  match a with
  | some s => if s = "" then dflt else s
  | none => dflt

/-- The exporter's `isEmpty`: `undefined`/`null`, the empty string, an
empty array, or an object with no (defined) fields. -/
def isEmpty : Option Value → Bool
  | none => true
  | some .undef => true
  | some .null => true
  | some (.str s) => s = ""
  | some (.num _) => false
  | some (.bool _) => false
  | some (.langs l) => l.isEmpty
  | some (.rangeV a b) => a = none ∧ b = none
  | some (.fileV p c) => p = none ∧ c = none
  | some (.refV _) => false

/-- `directValue !== undefined`. -/
def isJsDefined : Option Value → Bool
  | none => false
  | some .undef => false
  | some _ => true

/-- `Math.round`. -/
def jsRound (q : ℚ) : Int := ⌊q + 1 / 2⌋

/-- `String(value)` on the array/object shapes (the JavaScript
`[object Object]` rendering); only reached for malformed inputs. -/
def jsToStringFallback : Value → String
  | .langs l => String.intercalate "," (l.map (fun _ => "[object Object]"))
  | _ => "[object Object]"

/-- `formatPropertyValue`: booleans to `"true"`/`"false"`; numbers under an
integer value type rounded, otherwise printed as-is; strings pass through;
remaining shapes via the `String(...)` fallback.  (`Date` values are
outside the modelled universe.) -/
def formatPropertyValue (value : Option Value) (valueType : Option String) :
    Option String :=
  match value with
  | none => none
  | some .undef => none
  | some .null => none
  | some (.bool b) => some (if b then "true" else "false")
  | some (.num q) =>
      if (match valueType with
          | some vt => strIncludes vt "integer" || strIncludes vt "Int"
          | none => false) then
        some (intToString (jsRound q))
      else some (jsNumToString q)
  | some (.str s) => some s
  | some v => some (jsToStringFallback v)

/-- `createReference`. -/
def createReference (value : String) : Reference :=
  let isModelRef := !(strIncludes value "://") && !(jsStartsWith value "urn:")
  ⟨if isModelRef then "ModelReference" else "ExternalReference",
   [(if isModelRef then "Submodel" else "GlobalReference", value)]⟩

/-- `recordToLangStrings`: `undefined` for an empty record. -/
def recordToLangStrings (record : StrMap String) :
    Option (List (String × String)) :=
  if record.isEmpty then none else some record

/-- The shared metadata fields every converter copies from the element. -/
def mkMeta (d : ElementData) : ElMeta :=
  ⟨d.idShort,
   (match d.semanticId with
    | some s => if s = "" then none else some (createReference s)
    | none => none),
   recordToLangStrings d.description,
   recordToLangStrings d.displayName⟩

def isContainerType (mt : String) : Bool :=
  mt == "SubmodelElementCollection" || mt == "SubmodelElementList" ||
    mt == "Entity"

/-- The multi-language value conversion of `convertMultiLanguageProperty`:
array entries become `{language: v.language || 'en', text: String(v.text
|| '')}`; non-array values give the empty list. -/
def mlpValue : Option Value → List (String × String)
  | some (.langs l) =>
      l.map (fun e =>
        (jsOrStr e.1 "en",
         match e.2 with
         | some t => t
         | none => ""))
  | _ => []

def numOrStrToString : NumOrStr → String
  | .ofNum q => jsNumToString q
  | .ofStr s => s

/-- The content type default shared by `convertFile`/`convertBlob`:
`element.constraints?.contentType || 'application/octet-stream'`. -/
def defaultContentType (d : ElementData) : String :=
  match d.constraints with
  | some c => jsOrStr c.contentType "application/octet-stream"
  | none => "application/octet-stream"

/-- The non-recursive per-kind conversion (the `switch` of
`convertElement`), with the converted children supplied by the caller for
the grouping kinds.  An unsupported kind produces a warning in the source
and converts to `null`. -/
def convertKind (opts : ExportOptions) (d : ElementData) (value : Option Value)
    (convertedChildren : List SubmodelElement) : Option SubmodelElement :=
  match d.modelType with
  | "Property" =>
      some (.property (mkMeta d) (jsOrStr d.valueType "xs:string")
        (formatPropertyValue value d.valueType))
  | "MultiLanguageProperty" => some (.mlp (mkMeta d) (mlpValue value))
  | "SubmodelElementCollection" =>
      if !opts.includeEmpty && !d.isRequired && convertedChildren.isEmpty then
        none
      else some (.smc (mkMeta d) convertedChildren)
  | "Range" =>
      some (.rangeEl (mkMeta d) (jsOrStr d.valueType "xs:decimal")
        (match value with
         | some (.rangeV a _) => a.map numOrStrToString
         | _ => none)
        (match value with
         | some (.rangeV _ b) => b.map numOrStrToString
         | _ => none))
  | "File" =>
      some (.fileEl (mkMeta d)
        (match value with
         | some (.fileV _ (some ct)) => if ct = "" then defaultContentType d else ct
         | _ => defaultContentType d)
        (match value with
         | some (.str s) => s
         | some (.fileV (some p) _) => p
         | _ => ""))
  | "Blob" =>
      some (.blobEl (mkMeta d) (defaultContentType d)
        (match value with
         | some (.str s) => some s
         | _ => none))
  | "ReferenceElement" =>
      some (.refEl (mkMeta d)
        (match value with
         | some (.str s) => if s = "" then none else some (createReference s)
         | some (.refV r) => some r
         | _ => none))
  | "Entity" =>
      some (.entity (mkMeta d) "CoManagedEntity" convertedChildren)
  | _ => none

/-- One index extraction of `getArrayIndices`: the key matches
`^pathKey\.(\d+)(?:\.|$)` and the digit run is its index. -/
def extractIndex (pathKey : String) (key : String) : Option Nat :=
  let pfx := pathKey ++ "."
  if pfx.data.isPrefixOf key.data then
    let rest := key.data.drop pfx.data.length
    let digits := rest.takeWhile isDigitChar
    let tail := rest.drop digits.length
    if digits ≠ [] ∧ (tail = [] ∨ tail.head? = some '.') then
      some (digitsVal (digits.filterMap digitVal?))
    else none
  else none

/-- `getArrayIndices`: every live index under the path, de-duplicated and
sorted ascending. -/
def getArrayIndices (values : StrMap Value) (pathKey : String) : List Nat :=
  (((StrMap.keys values).filterMap (extractIndex pathKey)).dedup).insertionSort
    (· ≤ ·)

/-- `scopeArrayValues`: the sub-map for one index, with the index segment
stripped from the keys. -/
def scopeArrayValues (values : StrMap Value) (pathKey : String) (index : Nat) :
    StrMap Value :=
  let pfx := pathKey ++ "." ++ natToString index
  values.filterMap (fun kv =>
    if kv.1 = pfx then some (pathKey, kv.2)
    else if jsStartsWith kv.1 (pfx ++ ".") then
      some (pathKey ++ "." ++ strDropChars kv.1 (pfx.length + 1), kv.2)
    else none)

/-- `element.listElementType || itemTemplate?.modelType || 'Property'`. -/
def listElementTypeOf (d : ElementData) (itemTemplate? : Option ParsedElement) :
    String :=
  jsOrStr
    (jsOrOpt d.listElementType (itemTemplate?.map (fun t => t.data.modelType)))
    "Property"

/-!
The recursive element conversion, by mutual structural recursion.
`convertElement` is the source's `convertElement`; `convertSingle` models
the source's recursive call `convertElement({...element, isArray: false},
...)` (the only `isArray` reads are the two top-level checks, so clearing
the flag is exactly the same computation without the array branch; inside
`convertElement`'s array branch this single-occurrence conversion of the
SAME element is inlined as the local `single`).  `convertSMLCore` is
`convertSML`, `convertChildren` the `children.map(...).filter(...)`
pattern of `convertSMC`/`convertEntity`/`exportToSubmodel`.  The source's
write-only `warnings` log does not influence the produced document and is
not modelled. -/
mutual

def convertElement (opts : ExportOptions) (values : StrMap Value) :
    ParsedElement → Option SubmodelElement
  | .mk d cs =>
      let value := StrMap.get values d.pathString
      if !opts.includeEmpty && !d.isRequired && isEmpty value &&
          !(isContainerType d.modelType) && !d.isArray then none
      else if d.modelType = "SubmodelElementList" then
        convertSMLCore opts values d cs
      else if d.isArray then
        let single := fun (vals : StrMap Value) =>
          if !opts.includeEmpty && !d.isRequired &&
              isEmpty (StrMap.get vals d.pathString) &&
              !(isContainerType d.modelType) then none
          else if d.modelType = "SubmodelElementList" then
            convertSMLCore opts vals d cs
          else
            convertKind opts d (StrMap.get vals d.pathString)
              (convertChildren opts vals cs)
        let indices := getArrayIndices values d.pathString
        let items0 := indices.filterMap
          (fun i => single (scopeArrayValues values d.pathString i))
        let items :=
          if items0.isEmpty then
            (if isJsDefined (StrMap.get values d.pathString) then
              (match single values with
               | some it => [it]
               | none => [])
            else [])
          else items0
        if items.isEmpty && !opts.includeEmpty && !d.isRequired then none
        else some (.sml (mkMeta d) d.modelType d.valueType items)
      else
        convertKind opts d value (convertChildren opts values cs)

def convertSingle (opts : ExportOptions) (values : StrMap Value) :
    ParsedElement → Option SubmodelElement
  | .mk d cs =>
      let value := StrMap.get values d.pathString
      if !opts.includeEmpty && !d.isRequired && isEmpty value &&
          !(isContainerType d.modelType) then none
      else if d.modelType = "SubmodelElementList" then
        convertSMLCore opts values d cs
      else
        convertKind opts d value (convertChildren opts values cs)

def convertSMLCore (opts : ExportOptions) (values : StrMap Value)
    (d : ElementData) : List ParsedElement → Option SubmodelElement
  | [] =>
      -- no item template: every discovered index is skipped with a warning
      if !opts.includeEmpty && !d.isRequired then none
      else some (.sml (mkMeta d) (listElementTypeOf d none) d.valueType [])
  | t :: _ =>
      let indices := getArrayIndices values d.pathString
      let items := indices.filterMap
        (fun i => convertSingle opts (scopeArrayValues values d.pathString i) t)
      if items.isEmpty && !opts.includeEmpty && !d.isRequired then none
      else
        some (.sml (mkMeta d) (listElementTypeOf d (some t)) d.valueType items)

def convertChildren (opts : ExportOptions) (values : StrMap Value) :
    List ParsedElement → List SubmodelElement
  | [] => []
  | c :: rest =>
      match convertElement opts values c with
      | some el => el :: convertChildren opts values rest
      | none => convertChildren opts values rest

end

/-- `exportToSubmodel`: the template metadata with `kind: 'Instance'` and
the converted top-level elements. -/
def exportToSubmodel (template : ParsedTemplate) (values : StrMap Value)
    (opts : ExportOptions) : Submodel :=
  ⟨template.metadata_id, template.metadata_idShort,
   template.submodel_semanticId, "Instance",
   convertChildren opts values template.elements⟩

/-! ## Document importer (`src/lib/importers/submodel-importer.ts`) -/

/-- The numeric value types of the importer's `isNumericType` (note:
unlike the validator's integer family, this list has no `xs:gYear`). -/
def IMPORT_NUMERIC_TYPES : List String :=
  ["xs:decimal", "xs:double", "xs:float", "xs:integer", "xs:int", "xs:long",
   "xs:short", "xs:byte", "xs:positiveInteger", "xs:nonNegativeInteger",
   "xs:negativeInteger", "xs:nonPositiveInteger", "xs:unsignedLong",
   "xs:unsignedInt", "xs:unsignedShort", "xs:unsignedByte"]

/-- `parsePropertyValue`: booleans from the literal `"true"`; numeric
types through `Number(...)` with `NaN` falling back to the raw string;
everything else as-is. -/
def parsePropertyValue (valueType : String) (raw : Option String) : Value :=
  match raw with
  | none => .undef
  | some r =>
      if valueType = "xs:boolean" then .bool (r == "true")
      else if IMPORT_NUMERIC_TYPES.contains valueType then
        match jsNumber r with
        | some q => .num q
        | none => .str r
      else .str r

/-- `parseRangeValue`: numeric bounds, dropping `NaN` ends. -/
def parseRangeValue (rmin rmax : Option String) : Value :=
  .rangeV
    (match rmin with
     | some s => (jsNumber s).map .ofNum
     | none => none)
    (match rmax with
     | some s => (jsNumber s).map .ofNum
     | none => none)

/-- `parseReferenceValue`: the first key's value when truthy, else the
whole reference. -/
def parseReferenceValue (ref : Option Reference) : Value :=
  match ref with
  | none => .undef
  | some r =>
      match r.keys.head? with
      | some k => if k.2 = "" then .refV r else .str k.2
      | none => .refV r

/-- `idShort ? [...parentPath, idShort] : parentPath`. -/
def importNextPath (parentPath : List String) (idShort : String) :
    List String :=
  if idShort = "" then parentPath else parentPath ++ [idShort]

mutual

def addElementValues : SubmodelElement → List String → StrMap Value →
    StrMap Value
  | .property m vt v, pp, values =>
      StrMap.set values (pathToKey (importNextPath pp m.idShort))
        (parsePropertyValue vt v)
  | .mlp m v, pp, values =>
      StrMap.set values (pathToKey (importNextPath pp m.idShort))
        (.langs (v.map (fun p => (some p.1, some p.2))))
  | .rangeEl m _ mn mx, pp, values =>
      StrMap.set values (pathToKey (importNextPath pp m.idShort))
        (parseRangeValue mn mx)
  | .fileEl m ct v, pp, values =>
      StrMap.set values (pathToKey (importNextPath pp m.idShort))
        (if v = "" then .undef else .fileV (some v) (some ct))
  | .blobEl m _ v, pp, values =>
      StrMap.set values (pathToKey (importNextPath pp m.idShort))
        (match v with
         | some s => .str s
         | none => .undef)
  | .refEl m v, pp, values =>
      StrMap.set values (pathToKey (importNextPath pp m.idShort))
        (parseReferenceValue v)
  | .smc m children, pp, values =>
      addElementValuesList children (importNextPath pp m.idShort) values
  | .sml m _ _ children, pp, values =>
      addElementValuesIndexed children (importNextPath pp m.idShort) 0 values
  | .entity m _ stmts, pp, values =>
      addElementValuesList stmts (importNextPath pp m.idShort) values

def addElementValuesList : List SubmodelElement → List String → StrMap Value →
    StrMap Value
  | [], _, values => values
  | c :: rest, pp, values =>
      addElementValuesList rest pp (addElementValues c pp values)

def addElementValuesIndexed : List SubmodelElement → List String → Nat →
    StrMap Value → StrMap Value
  | [], _, _, values => values
  | c :: rest, pp, i, values =>
      addElementValuesIndexed rest pp (i + 1)
        (addElementValues c (pp ++ [natToString i]) values)

end

/-- `importSubmodelValues`. -/
def importSubmodelValues (sub : Submodel) : StrMap Value :=
  addElementValuesList sub.submodelElements [] []

/-! ## Claim C5 -/

/-- C5 (counterexample): the claim states every optional grouping element
(SubmodelElementCollection, SubmodelElementList, Entity) with an empty
converted-children list is omitted when `includeEmpty` is false.  But
`convertEntity` has no empty check: exporting a template whose only
element is an optional `Entity` with no children and no values still
emits the entity. -/
theorem empty_entity_still_exported :
    exportToSubmodel
        ⟨"urn:t", "T", none,
         [.mk ⟨"E", ["E"], "E", "Entity", none, none, "ZeroToOne", false,
            false, none, "entity", [], [], none, [], none⟩ []]⟩
        [] ⟨false⟩
      = ⟨"urn:t", "T", none, "Instance",
         [.entity ⟨"E", none, none, none⟩ "CoManagedEntity" []]⟩ := rfl

/-- C5 (amended): with `includeEmpty` false, a non-required
SubmodelElementCollection (not repeated) whose converted children list is
empty is omitted, and a non-required SubmodelElementList whose item list
comes out empty is omitted; but a (non-repeated) Entity is ALWAYS
exported, even with zero converted statements. -/
theorem empty_grouping_export (opts : ExportOptions) (values : StrMap Value)
    (d : ElementData) (cs : List ParsedElement)
    (hinc : opts.includeEmpty = false) (hreq : d.isRequired = false) :
    (d.modelType = "SubmodelElementCollection" → d.isArray = false →
      convertChildren opts values cs = [] →
      convertElement opts values (.mk d cs) = none) ∧
    (d.modelType = "SubmodelElementList" →
      (∀ t rest, cs = t :: rest →
        (getArrayIndices values d.pathString).filterMap
          (fun i => convertSingle opts (scopeArrayValues values d.pathString i) t)
          = []) →
      convertElement opts values (.mk d cs) = none) ∧
    (d.modelType = "Entity" → d.isArray = false →
      convertElement opts values (.mk d cs)
        = some (.entity (mkMeta d) "CoManagedEntity"
            (convertChildren opts values cs))) := by
  refine ⟨?_, ?_, ?_⟩
  · intro hmt harr hch
    unfold convertElement
    rw [if_neg (by simp [isContainerType, hmt]),
      if_neg (by rw [hmt]; decide), if_neg (by simp [harr])]
    unfold convertKind
    rw [hmt]
    show (if (!opts.includeEmpty && !d.isRequired &&
        (convertChildren opts values cs).isEmpty) = true then none
      else some (SubmodelElement.smc (mkMeta d)
        (convertChildren opts values cs))) = none
    rw [if_pos (by simp [hch, hinc, hreq])]
  · intro hmt hitems
    unfold convertElement
    rw [if_neg (by simp [isContainerType, hmt]), if_pos hmt]
    cases cs with
    | nil =>
        unfold convertSMLCore
        rw [if_pos (by simp [hinc, hreq])]
    | cons t rest =>
        unfold convertSMLCore
        rw [if_pos (by simp [hitems t rest rfl, hinc, hreq])]
  · intro hmt harr
    unfold convertElement
    rw [if_neg (by simp [isContainerType, hmt]),
      if_neg (by rw [hmt]; decide), if_neg (by simp [harr])]
    unfold convertKind
    rw [hmt]
    rfl

/-- Witness for C5: a concrete optional empty collection is omitted and a
concrete optional empty list is omitted, from the amended theorem. -/
theorem empty_grouping_export_witness :
    convertElement ⟨false⟩ []
        (.mk ⟨"C", ["C"], "C", "SubmodelElementCollection", none, none,
          "ZeroToOne", false, false, none, "collection", [], [], none, [],
          none⟩ [])
      = none ∧
    convertElement ⟨false⟩ []
        (.mk ⟨"L", ["L"], "L", "SubmodelElementList", none, none,
          "ZeroToOne", false, false, none, "list", [], [], none, [],
          none⟩ [])
      = none :=
  ⟨(empty_grouping_export ⟨false⟩ []
      ⟨"C", ["C"], "C", "SubmodelElementCollection", none, none, "ZeroToOne",
        false, false, none, "collection", [], [], none, [], none⟩ []
      rfl rfl).1 rfl rfl rfl,
   (empty_grouping_export ⟨false⟩ []
      ⟨"L", ["L"], "L", "SubmodelElementList", none, none, "ZeroToOne",
        false, false, none, "list", [], [], none, [], none⟩ []
      rfl rfl).2.1 rfl (by intro t rest h; cases h)⟩

/-! ## Decimal numeral lemmas (for claim C1) -/

lemma digitsVal_append_single (l : List Nat) (d : Nat) :
    digitsVal (l ++ [d]) = digitsVal l * 10 + d := by
  simp [digitsVal, List.foldl_append]

lemma natDigitsF_spec : ∀ fuel n, n ≤ fuel →
    digitsVal (natDigitsF fuel n) = n ∧ (∀ d ∈ natDigitsF fuel n, d < 10) ∧
      natDigitsF fuel n ≠ [] := by
  intro fuel
  induction fuel with
  | zero =>
      intro n hn
      interval_cases n
      exact ⟨rfl, by decide, by decide⟩
  | succ f ih =>
      intro n hn
      by_cases h10 : n < 10
      · refine ⟨?_, ?_, ?_⟩
        · simp [natDigitsF, h10, digitsVal]
        · intro d hd
          simp [natDigitsF, h10] at hd
          omega
        · simp [natDigitsF, h10]
      · have hrec := ih (n / 10) (by omega)
        have hstep : natDigitsF (f + 1) n = natDigitsF f (n / 10) ++ [n % 10] := by
          simp [natDigitsF, h10]
        refine ⟨?_, ?_, ?_⟩
        · rw [hstep, digitsVal_append_single, hrec.1]
          omega
        · intro d hd
          rw [hstep] at hd
          rcases List.mem_append.mp hd with hd | hd
          · exact hrec.2.1 d hd
          · simp only [List.mem_singleton] at hd
            subst hd
            omega
        · rw [hstep]
          simp

lemma natDigits_val (n : Nat) : digitsVal (natDigits n) = n :=
  (natDigitsF_spec n n le_rfl).1

lemma natDigits_lt_ten (n : Nat) : ∀ d ∈ natDigits n, d < 10 :=
  (natDigitsF_spec n n le_rfl).2.1

lemma natDigits_ne_nil (n : Nat) : natDigits n ≠ [] :=
  (natDigitsF_spec n n le_rfl).2.2

lemma digitVal_digitChar (d : Nat) (h : d < 10) :
    digitVal? (digitChar d) = some d := by
  interval_cases d <;> decide

lemma isDigitChar_digitChar (d : Nat) (h : d < 10) :
    isDigitChar (digitChar d) = true := by
  rw [isDigitChar, digitVal_digitChar d h]
  rfl

lemma natToString_all_digits (n : Nat) :
    ∀ c ∈ (natToString n).data, isDigitChar c = true := by
  intro c hc
  simp only [natToString, List.mem_map] at hc
  obtain ⟨d, hd, rfl⟩ := hc
  exact isDigitChar_digitChar d (natDigits_lt_ten n d hd)

lemma natToString_data_ne_nil (n : Nat) : (natToString n).data ≠ [] := by
  simp only [natToString]
  intro h
  exact natDigits_ne_nil n (List.map_eq_nil_iff.mp h)

lemma filterMap_digitVal_map (ds : List Nat) (h : ∀ d ∈ ds, d < 10) :
    (ds.map digitChar).filterMap digitVal? = ds := by
  induction ds with
  | nil => rfl
  | cons d t ih =>
      simp only [List.map_cons, List.filterMap_cons,
        digitVal_digitChar d (h d (List.mem_cons_self d t))]
      rw [ih (fun x hx => h x (List.mem_cons_of_mem d hx))]

/-! ## Index extraction lemmas (claim C1) -/

lemma extractIndex_self (p : String) (i : Nat) :
    extractIndex p (p ++ "." ++ natToString i) = some i := by
  unfold extractIndex
  have hdata : (p ++ "." ++ natToString i).data
      = (p ++ ".").data ++ (natToString i).data := rfl
  rw [if_pos]
  · dsimp only
    rw [hdata, List.drop_left,
      List.takeWhile_eq_self_iff.mpr (natToString_all_digits i)]
    rw [if_pos ⟨natToString_data_ne_nil i, Or.inl (by rw [List.drop_length])⟩]
    simp only [natToString]
    rw [filterMap_digitVal_map _ (natDigits_lt_ten i), natDigits_val]
  · rw [hdata]
    exact List.isPrefixOf_iff_prefix.mpr (List.prefix_append _ _)

lemma takeWhile_digits_dot (l1 l2 : List Char) (h : ∀ c ∈ l1, isDigitChar c = true) :
    (l1 ++ '.' :: l2).takeWhile isDigitChar = l1 := by
  induction l1 with
  | nil => rfl
  | cons c t ih =>
      simp only [List.cons_append, List.takeWhile_cons,
        h c (List.mem_cons_self c t)]
      rw [ih (fun x hx => h x (List.mem_cons_of_mem c hx))]
      simp

lemma extractIndex_under (p : String) (i : Nat) (rest : String) :
    extractIndex p (p ++ "." ++ natToString i ++ "." ++ rest) = some i := by
  unfold extractIndex
  have hdata : (p ++ "." ++ natToString i ++ "." ++ rest).data
      = (p ++ ".").data ++ ((natToString i).data ++ '.' :: rest.data) := by
    show (p.data ++ '.'.toString.data ++ (natToString i).data ++
      '.'.toString.data ++ rest.data)
        = (p.data ++ '.'.toString.data) ++ ((natToString i).data ++ '.' :: rest.data)
    simp [Char.toString]
  rw [if_pos]
  · dsimp only
    rw [hdata, List.drop_left,
      takeWhile_digits_dot _ _ (natToString_all_digits i)]
    rw [if_pos ⟨natToString_data_ne_nil i, Or.inr (by rw [List.drop_left]; rfl)⟩]
    simp only [natToString]
    rw [filterMap_digitVal_map _ (natDigits_lt_ten i), natDigits_val]
  · rw [hdata]
    exact List.isPrefixOf_iff_prefix.mpr (List.prefix_append _ _)

/-! ## `getArrayIndices` lemmas (claim C1) -/

lemma mem_getArrayIndices_iff (values : StrMap Value) (p : String) (i : Nat) :
    i ∈ getArrayIndices values p ↔
      ∃ k ∈ StrMap.keys values, extractIndex p k = some i := by
  unfold getArrayIndices
  rw [(List.perm_insertionSort _ _).mem_iff, List.mem_dedup, List.mem_filterMap]

lemma getArrayIndices_sorted (values : StrMap Value) (p : String) :
    List.Sorted (· < ·) (getArrayIndices values p) := by
  have hs : List.Sorted (· ≤ ·) (getArrayIndices values p) :=
    List.sorted_insertionSort _ _
  have hn : (getArrayIndices values p).Nodup :=
    (List.perm_insertionSort _ _).nodup_iff.mpr (List.nodup_dedup _)
  exact hs.lt_of_le hn

/-! ## Scoping lemmas (claim C1) -/

lemma str_ne_append_dot (p rest : String) : p ≠ (p ++ ".") ++ rest := by
  intro h
  have := congrArg (fun s : String => s.data.length) h
  simp at this

lemma str_append_cancel (a b c : String) (h : a ++ b = a ++ c) : b = c := by
  apply String.ext
  have := congrArg String.data h
  simp only [show ∀ x y : String, (x ++ y).data = x.data ++ y.data from
    fun _ _ => rfl] at this
  exact List.append_cancel_left this

lemma str_of_prefix_decomp (k pfx : String)
    (h : pfx.data.isPrefixOf k.data = true) :
    k = pfx ++ String.mk (k.data.drop pfx.data.length) := by
  apply String.ext
  show k.data = pfx.data ++ k.data.drop pfx.data.length
  obtain ⟨t, ht⟩ := List.isPrefixOf_iff_prefix.mp h
  conv in k.data => rw [← ht]
  rw [← ht, List.drop_left]

lemma append_dot_data_len (pfx : String) :
    ((pfx ++ ".").data.length) = pfx.length + 1 := by
  show (pfx.data ++ ".".data).length = pfx.data.length + 1
  rw [List.length_append]
  rfl

lemma StrMap.get_cons {α : Type} (kv : String × α) (t : StrMap α) (k : String) :
    StrMap.get (kv :: t) k = if kv.1 = k then some kv.2 else StrMap.get t k := by
  unfold StrMap.get
  by_cases h : kv.1 = k
  · rw [List.find?_cons_of_pos _ (by simpa using h), if_pos h]
    rfl
  · rw [List.find?_cons_of_neg _ (by simpa using h), if_neg h]

/-- One step of `scopeArrayValues` over a cons cell. -/
lemma scopeArrayValues_cons (kv : String × Value) (t : StrMap Value)
    (p : String) (i : Nat) :
    scopeArrayValues (kv :: t) p i =
      (if kv.1 = p ++ "." ++ natToString i then
        (p, kv.2) :: scopeArrayValues t p i
      else if jsStartsWith kv.1 ((p ++ "." ++ natToString i) ++ ".") then
        (p ++ "." ++
          String.mk (kv.1.data.drop
            (((p ++ "." ++ natToString i) ++ ".").data.length)), kv.2)
          :: scopeArrayValues t p i
      else scopeArrayValues t p i) := by
  unfold scopeArrayValues
  dsimp only
  rw [List.filterMap_cons]
  by_cases h1 : kv.1 = p ++ "." ++ natToString i
  · rw [if_pos h1, if_pos h1]
  · rw [if_neg h1, if_neg h1]
    by_cases h2 : jsStartsWith kv.1 ((p ++ "." ++ natToString i) ++ ".")
    · rw [if_pos h2, if_pos h2]
      show ((p ++ "." ++ strDropChars kv.1
        ((p ++ "." ++ natToString i).length + 1), kv.2)) :: _ = _
      rw [strDropChars, ← append_dot_data_len (p ++ "." ++ natToString i)]
    · rw [if_neg h2, if_neg h2]

/-- `scopeArrayValues` strips the index segment: looking up
`p + "." + rest` in the scoped map is looking up
`p + "." + i + "." + rest` in the original. -/
lemma scope_get_nested (values : StrMap Value) (p : String) (i : Nat)
    (rest : String) :
    StrMap.get (scopeArrayValues values p i) (p ++ "." ++ rest)
      = StrMap.get values ((p ++ "." ++ natToString i) ++ "." ++ rest) := by
  induction values with
  | nil => rfl
  | cons kv t ih =>
      rw [scopeArrayValues_cons]
      by_cases h1 : kv.1 = p ++ "." ++ natToString i
      · rw [if_pos h1, StrMap.get_cons, StrMap.get_cons,
          if_neg (str_ne_append_dot p rest),
          if_neg (show ¬ kv.1 = (p ++ "." ++ natToString i) ++ "." ++ rest by
            rw [h1]
            exact str_ne_append_dot (p ++ "." ++ natToString i) rest)]
        exact ih
      · rw [if_neg h1]
        by_cases h2 : jsStartsWith kv.1 ((p ++ "." ++ natToString i) ++ ".")
            = true
        · rw [if_pos h2, StrMap.get_cons, StrMap.get_cons]
          have hdec := str_of_prefix_decomp kv.1 _ h2
          by_cases h3 : String.mk (kv.1.data.drop
              (((p ++ "." ++ natToString i) ++ ".").data.length)) = rest
          · have e1 : p ++ "." ++ String.mk (kv.1.data.drop
                (((p ++ "." ++ natToString i) ++ ".").data.length))
                  = p ++ "." ++ rest := by rw [h3]
            have e2 : kv.1 = (p ++ "." ++ natToString i) ++ "." ++ rest := by
              rw [hdec, h3]
            rw [if_pos e1, if_pos e2]
          · have e1 : ¬ (p ++ "." ++ String.mk (kv.1.data.drop
                (((p ++ "." ++ natToString i) ++ ".").data.length))
                  = p ++ "." ++ rest) :=
              fun hEq => h3 (str_append_cancel (p ++ ".") _ _ hEq)
            have e2 : ¬ (kv.1 = (p ++ "." ++ natToString i) ++ "." ++ rest) := by
              intro hEq
              apply h3
              have h5 : ((p ++ "." ++ natToString i) ++ ".") ++
                  String.mk (kv.1.data.drop
                    (((p ++ "." ++ natToString i) ++ ".").data.length))
                  = ((p ++ "." ++ natToString i) ++ ".") ++ rest := by
                rw [← hdec]
                exact hEq
              exact str_append_cancel _ _ _ h5
            rw [if_neg e1, if_neg e2]
            exact ih
        · rw [if_neg h2, StrMap.get_cons]
          have e2 : ¬ kv.1 = (p ++ "." ++ natToString i) ++ "." ++ rest := by
            intro hEq
            apply h2
            unfold jsStartsWith
            rw [hEq]
            exact List.isPrefixOf_iff_prefix.mpr ⟨rest.data, rfl⟩
          rw [if_neg e2]
          exact ih

/-- `scopeArrayValues` maps the bare index key to the bare path key. -/
lemma scope_get_self (values : StrMap Value) (p : String) (i : Nat) :
    StrMap.get (scopeArrayValues values p i) p
      = StrMap.get values (p ++ "." ++ natToString i) := by
  induction values with
  | nil => rfl
  | cons kv t ih =>
      rw [scopeArrayValues_cons, StrMap.get_cons]
      by_cases h1 : kv.1 = p ++ "." ++ natToString i
      · rw [if_pos h1, StrMap.get_cons, if_pos rfl, if_pos h1]
      · rw [if_neg h1]
        by_cases h2 : jsStartsWith kv.1 ((p ++ "." ++ natToString i) ++ ".")
        · rw [if_pos h2, StrMap.get_cons,
            if_neg (fun hEq => str_ne_append_dot p _ hEq.symm),
            if_neg h1]
          exact ih
        · rw [if_neg h2, if_neg h1]
          exact ih

/-! ## Claim C1 -/

lemma mem_convertChildren (opts : ExportOptions) (values : StrMap Value)
    (l : List ParsedElement) (x : ParsedElement) (y : SubmodelElement)
    (hx : x ∈ l) (hy : convertElement opts values x = some y) :
    y ∈ convertChildren opts values l := by
  induction l with
  | nil => cases hx
  | cons c rest ih =>
      rcases List.mem_cons.mp hx with rfl | hmem
      · unfold convertChildren
        rw [hy]
        exact List.mem_cons_self _ _
      · unfold convertChildren
        cases hc : convertElement opts values c with
        | some el => exact List.mem_cons_of_mem _ (ih hmem)
        | none => exact ih hmem

/-- The array branch of `convertElement`, with the inlined
single-occurrence conversion re-expressed through `convertSingle` (the two
are definitionally the same computation). -/
lemma convertElement_array_eq (opts : ExportOptions) (values : StrMap Value)
    (d : ElementData) (cs : List ParsedElement)
    (harr : d.isArray = true) (hmt : d.modelType ≠ "SubmodelElementList") :
    convertElement opts values (.mk d cs) =
      (let items0 := (getArrayIndices values d.pathString).filterMap
          (fun i => convertSingle opts (scopeArrayValues values d.pathString i)
            (.mk d cs));
       let items :=
         if items0.isEmpty then
           (if isJsDefined (StrMap.get values d.pathString) then
             (match convertSingle opts values (.mk d cs) with
              | some it => [it]
              | none => [])
           else [])
         else items0;
       if items.isEmpty && !opts.includeEmpty && !d.isRequired then none
       else some (.sml (mkMeta d) d.modelType d.valueType items)) := by
  unfold convertElement
  rw [if_neg (by simp [harr]), if_neg hmt, if_pos harr]
  rfl

/-- C1: a repeatable element (not itself a declared list) exports as an
ordered `SubmodelElementList` whose items are exactly the
single-occurrence conversions (`isArray` cleared) at the live indices of
the flat value map, scoped per index; the discovered index list is
sorted strictly ascending and contains exactly the indices appearing in
live keys (`p.i` or `p.i.…`, including the canonical `p.<i>` keys for
every i); and scoping strips the index segment from the keys.  The
exported list is an element of `exportToSubmodel`'s output whenever the
element is in the template. -/
theorem exportToSubmodel_array_element_spec (opts : ExportOptions)
    (values : StrMap Value) (tmpl : ParsedTemplate)
    (d : ElementData) (cs : List ParsedElement)
    (hmem : ParsedElement.mk d cs ∈ tmpl.elements)
    (harr : d.isArray = true)
    (hmt : d.modelType ≠ "SubmodelElementList")
    (hitems : (getArrayIndices values d.pathString).filterMap
        (fun i => convertSingle opts (scopeArrayValues values d.pathString i)
          (.mk d cs)) ≠ []) :
    convertElement opts values (.mk d cs)
      = some (.sml (mkMeta d) d.modelType d.valueType
          ((getArrayIndices values d.pathString).filterMap
            (fun i => convertSingle opts
              (scopeArrayValues values d.pathString i) (.mk d cs)))) ∧
    (SubmodelElement.sml (mkMeta d) d.modelType d.valueType
        ((getArrayIndices values d.pathString).filterMap
          (fun i => convertSingle opts (scopeArrayValues values d.pathString i)
            (.mk d cs))))
      ∈ (exportToSubmodel tmpl values opts).submodelElements ∧
    List.Sorted (· < ·) (getArrayIndices values d.pathString) ∧
    (∀ i, i ∈ getArrayIndices values d.pathString ↔
      ∃ k ∈ StrMap.keys values, extractIndex d.pathString k = some i) ∧
    (∀ i rest, extractIndex d.pathString
        (d.pathString ++ "." ++ natToString i) = some i ∧
      extractIndex d.pathString
        (d.pathString ++ "." ++ natToString i ++ "." ++ rest) = some i) ∧
    (∀ i rest,
      StrMap.get (scopeArrayValues values d.pathString i)
          (d.pathString ++ "." ++ rest)
        = StrMap.get values
            ((d.pathString ++ "." ++ natToString i) ++ "." ++ rest) ∧
      StrMap.get (scopeArrayValues values d.pathString i) d.pathString
        = StrMap.get values (d.pathString ++ "." ++ natToString i)) := by
  have h1 : convertElement opts values (.mk d cs)
      = some (.sml (mkMeta d) d.modelType d.valueType
          ((getArrayIndices values d.pathString).filterMap
            (fun i => convertSingle opts
              (scopeArrayValues values d.pathString i) (.mk d cs)))) := by
    rw [convertElement_array_eq opts values d cs harr hmt]
    have hie : ((getArrayIndices values d.pathString).filterMap
        (fun i => convertSingle opts (scopeArrayValues values d.pathString i)
          (.mk d cs))).isEmpty = false := by
      cases hT : (getArrayIndices values d.pathString).filterMap
          (fun i => convertSingle opts (scopeArrayValues values d.pathString i)
            (.mk d cs)) with
      | nil => exact absurd hT hitems
      | cons a l => rfl
    simp [hie]
  refine ⟨h1, ?_, getArrayIndices_sorted values d.pathString,
    fun i => mem_getArrayIndices_iff values d.pathString i,
    fun i rest => ⟨extractIndex_self d.pathString i,
      extractIndex_under d.pathString i rest⟩,
    fun i rest => ⟨scope_get_nested values d.pathString i rest,
      scope_get_self values d.pathString i⟩⟩
  exact mem_convertChildren opts values tmpl.elements _ _ hmem h1

/-- Witness for C1: the `Tags` scenario — after removing the item at
index `0`, only `Tags.1 = "B"` is live; export yields a one-item list
whose item carries value `"B"`. -/
theorem exportToSubmodel_array_element_spec_witness :
    convertElement ⟨false⟩ [("Tags.1", Value.str "B")]
        (.mk ⟨"Tags", ["Tags"], "Tags", "Property", none, none, "ZeroToMany",
          false, true, some "xs:string", "text", [], [], none, [], none⟩ [])
      = some (.sml ⟨"Tags", none, none, none⟩ "Property" (some "xs:string")
          [.property ⟨"Tags", none, none, none⟩ "xs:string" (some "B")]) ∧
    (SubmodelElement.sml ⟨"Tags", none, none, none⟩ "Property"
        (some "xs:string")
        [.property ⟨"Tags", none, none, none⟩ "xs:string" (some "B")])
      ∈ (exportToSubmodel
          ⟨"urn:t", "T", none,
           [.mk ⟨"Tags", ["Tags"], "Tags", "Property", none, none,
              "ZeroToMany", false, true, some "xs:string", "text", [], [],
              none, [], none⟩ []]⟩
          [("Tags.1", Value.str "B")] ⟨false⟩).submodelElements := by
  have h := exportToSubmodel_array_element_spec ⟨false⟩
    [("Tags.1", Value.str "B")]
    ⟨"urn:t", "T", none,
     [.mk ⟨"Tags", ["Tags"], "Tags", "Property", none, none, "ZeroToMany",
        false, true, some "xs:string", "text", [], [], none, [], none⟩ []]⟩
    ⟨"Tags", ["Tags"], "Tags", "Property", none, none, "ZeroToMany", false,
      true, some "xs:string", "text", [], [], none, [], none⟩ []
    (List.mem_cons_self _ _) rfl (by decide) (List.cons_ne_nil _ _)
  exact ⟨h.1, h.2.1⟩

/-! ## Claim C4 -/

/-- The repeatable `Tags` property (cardinality Zero-or-Many) used in the
round-trip counterexample. -/
def tagsTemplateEl : ParsedElement :=
  .mk ⟨"Tags", ["Tags"], "Tags", "Property", none, none, "ZeroToMany",
    false, true, some "xs:string", "text", [], [], none, [], none⟩ []

/-- A plain required, non-repeatable property, for contrast. -/
def nameTemplateEl : ParsedElement :=
  .mk ⟨"Name", ["Name"], "Name", "Property", none, none, "One",
    true, false, some "xs:string", "text", [], [], none, [], none⟩ []

/-- C4 (divergence): exporting the flat map `{"Tags.0" ↦ "A"}` through a
template whose sole element is the repeatable property `Tags` and
importing the produced document does NOT reproduce the scalar entry: the
importer appends both the list position and the item's short-name, so the
value resurfaces under the foreign key `Tags.0.Tags` and the original key
`Tags.0` maps to nothing — no type coercion is involved (the value is a
plain string and survives unchanged; only the key is wrong).  For
contrast, the same round trip on the non-repeatable property `Name`
reproduces its entry exactly. -/
theorem export_import_rekeys_repeatable_entry :
    importSubmodelValues
        (exportToSubmodel ⟨"urn:t", "T", none, [tagsTemplateEl]⟩
          [("Tags.0", Value.str "A")] ⟨false⟩)
      = [("Tags.0.Tags", Value.str "A")] ∧
    StrMap.get
        (importSubmodelValues
          (exportToSubmodel ⟨"urn:t", "T", none, [tagsTemplateEl]⟩
            [("Tags.0", Value.str "A")] ⟨false⟩)) "Tags.0" = none ∧
    StrMap.get [("Tags.0", Value.str "A")] "Tags.0"
      = some (Value.str "A") ∧
    StrMap.get
        (importSubmodelValues
          (exportToSubmodel ⟨"urn:t", "T", none, [nameTemplateEl]⟩
            [("Name", Value.str "A")] ⟨false⟩)) "Name"
      = some (Value.str "A") :=
  ⟨rfl, rfl, rfl, rfl⟩

/-! ## Claim C1, counterexample: the direct-value fallback -/

/-- C1 (counterexample): the exported list of a repeatable element is not
always built from index discovery.  With `{"Tags" ↦ "X"}` there is no
live index at all, yet the export is a one-item list carrying `"X"`; with
`{"Tags.0" ↦ "", "Tags" ↦ "X"}` the live index set is `[0]`, but the
per-index conversion of the empty optional value survives nowhere, and
the code falls back to the bare unindexed value, again exporting a
one-item list `["X"]` instead of the (empty) per-index-built list. -/
theorem convertElement_direct_value_fallback :
    getArrayIndices [("Tags", Value.str "X")] "Tags" = [] ∧
    convertElement ⟨false⟩ [("Tags", Value.str "X")] tagsTemplateEl
      = some (.sml ⟨"Tags", none, none, none⟩ "Property" (some "xs:string")
          [.property ⟨"Tags", none, none, none⟩ "xs:string" (some "X")]) ∧
    getArrayIndices [("Tags.0", Value.str ""), ("Tags", Value.str "X")]
        "Tags" = [0] ∧
    convertElement ⟨false⟩
        [("Tags.0", Value.str ""), ("Tags", Value.str "X")] tagsTemplateEl
      = some (.sml ⟨"Tags", none, none, none⟩ "Property" (some "xs:string")
          [.property ⟨"Tags", none, none, none⟩ "xs:string" (some "X")]) :=
  ⟨rfl, rfl, rfl, rfl⟩

end AASFF
